/-
  Verification development for the HackLuminary slide-generation pipeline.

  This file shallowly embeds the Python modules of the repository
  (slides.py, visual_selector.py, ai_pipeline.py, evidence.py,
  git_context.py, document_parser.py, analyzer.py, pipeline.py,
  studio_server.py, studio_session.py) as executable Lean definitions and
  proves or refutes the frozen specification claims about them.

  Modelling conventions:
  * Python `dict`-shaped records become structures; keys that may be
    absent from a dict become `Option` fields.
  * Python `str` becomes `String`; slicing `s[:n]` becomes a take on the
    character list (Python slices count code points).
  * Python `float` values that only flow through the pipeline as data
    (confidence scores) are modelled as exact fractions (`Frac`); the
    floating-point visual scorer `score_media_for_slide` (which uses
    `math.sqrt`) is abstracted as a function parameter, which is faithful
    for the claims below because they hold for every score assignment.
  * I/O boundaries (subprocess git calls, file reads, the llama.cpp
    backend, json/toml library parsers, sha1/sha256) are passed in as
    explicit oracle parameters; everything the repository computes from
    their results is embedded from the source.
-/
import Mathlib

/-! ## Python string helpers

All string helpers are written over the character list of the string so
that every definition evaluates by kernel reduction (the repository's
strings are ASCII, so the ASCII case analysis is exact). -/

/-- Python `\s` character class (ASCII portion). -/
def isPyWS (c : Char) : Bool :=
  c = ' ' ∨ c = '\t' ∨ c = '\n' ∨ c = '\r' ∨ c = '\x0b' ∨ c = '\x0c'

/-- ASCII lower-casing of one character. -/
def charLower (c : Char) : Char :=
  if 'A' ≤ c ∧ c ≤ 'Z' then Char.ofNat (c.toNat + 32) else c

/-- Python `s.lower()`. -/
def pyLower (s : String) : String := String.mk (s.data.map charLower)

/-- Python `s.strip()`. -/
def pyStrip (s : String) : String :=
  String.mk (((s.data.dropWhile isPyWS).reverse.dropWhile isPyWS).reverse)

/-- Python slicing `s[:n]` (counts characters). -/
def pySlice (s : String) (n : Nat) : String := String.mk (s.data.take n)

/-- Python `a or b` on strings: `b` when `a` is empty. -/
def pyOr (a b : String) : String := if a = "" then b else a

/-- Is `pat` a prefix of `l`? -/
def charPre (pat l : List Char) : Bool := decide (l.take pat.length = pat)

def containsSubAux (pat : List Char) : List Char → Bool
  | [] => decide (pat = [])
  | c :: rest => charPre pat (c :: rest) || containsSubAux pat rest

/-- Python `pat in s` substring test. -/
def strContainsSub (s pat : String) : Bool := containsSubAux pat.data s.data

/-- Python `s.startswith(p)`. -/
def strStartsWith (s p : String) : Bool := charPre p.data s.data

/-- Python `s.endswith(p)`. -/
def strEndsWith (s p : String) : Bool := charPre p.data.reverse s.data.reverse

/-- The splitter behind Python `s.split(sep)` for a non-empty separator.
    The fuel is an upper bound on the input length; every recursive call
    shortens the list, so `length` fuel never runs out. -/
def splitOnListAux (sep : List Char) : Nat → List Char → List Char → List (List Char)
  | _, [], acc => [acc.reverse]
  | 0, l, acc => [acc.reverse ++ l]
  | f + 1, c :: rest, acc =>
      if charPre sep (c :: rest) ∧ sep ≠ [] then
        acc.reverse :: splitOnListAux sep f (List.drop (sep.length - 1) rest) []
      else splitOnListAux sep f rest (c :: acc)

/-- Python `s.split(sep)` for a non-empty separator. -/
def strSplitOn (s sep : String) : List String :=
  (splitOnListAux sep.data s.data.length s.data []).map String.mk

/-- Python `s.replace(pat, rep)` for a non-empty pattern. -/
def strReplace (s pat rep : String) : String :=
  String.intercalate rep (strSplitOn s pat)

/-- Lexicographic (code-point) string order as used by Python `sorted`. -/
def charListLe : List Char → List Char → Bool
  | [], _ => true
  | _ :: _, [] => false
  | a :: as, b :: bs =>
      if a < b then true else if b < a then false else charListLe as bs

def strLeB (a b : String) : Bool := charListLe a.data b.data

/-! ### A stable sort that evaluates by kernel reduction

Python's `sorted` is a stable sort over a total preorder; for such
relations every stable sort computes the same list, so the repository's
`sorted(...)` calls are modelled by a stable insertion sort (the library
merge sort is defined by well-founded recursion, which the kernel cannot
evaluate). -/

def orderedInsert (le : α → α → Bool) (x : α) : List α → List α
  | [] => [x]
  | y :: ys => if le y x then y :: orderedInsert le x ys else x :: y :: ys

/-- Stable sort: elements are inserted left to right, each placed after
    every earlier element whose key is less than or equal to its own. -/
def pySorted (le : α → α → Bool) (l : List α) : List α :=
  l.foldl (fun acc x => orderedInsert le x acc) []

theorem orderedInsert_perm (le : α → α → Bool) (x : α) :
    ∀ l : List α, (orderedInsert le x l).Perm (x :: l) := by
  intro l
  induction l with
  | nil => simp [orderedInsert]
  | cons y ys ih =>
      by_cases h : le y x = true
      · simpa [orderedInsert, h] using
          ((ih.cons y).trans (List.Perm.swap x y ys))
      · simp [orderedInsert, h]

theorem pySorted_foldl_perm (le : α → α → Bool) :
    ∀ (l acc : List α), (l.foldl (fun acc x => orderedInsert le x acc) acc).Perm (acc ++ l) := by
  intro l
  induction l with
  | nil => intro acc; simp
  | cons x xs ih =>
      intro acc
      have h1 := ih (orderedInsert le x acc)
      have h2 : (orderedInsert le x acc ++ xs).Perm (acc ++ x :: xs) := by
        refine ((orderedInsert_perm le x acc).append_right xs).trans ?_
        simpa using (@List.perm_middle _ x acc xs).symm
      simpa using h1.trans h2

theorem pySorted_perm (le : α → α → Bool) (l : List α) : (pySorted le l).Perm l := by
  simpa using pySorted_foldl_perm le l []


/-- Python `s.splitlines()` restricted to `\n` separators (the repo's files). -/
def pySplitlines (s : String) : List String :=
  if s = "" then []
  else
    let parts := strSplitOn s "\n"
    if parts.getLast? = some "" then parts.dropLast else parts

/-- Helper for thousands grouping: insert `,` every three characters
    of an already-reversed digit list. -/
def groupThrees : List Char → List Char
  | a :: b :: c :: d :: rest => a :: b :: c :: ',' :: groupThrees (d :: rest)
  | l => l

/-- Python `f"{n:,}"` for a natural number. -/
def natComma (n : Nat) : String :=
  String.mk (groupThrees (toString n).data.reverse).reverse

/-! ## Exact rationals

Python floats that flow through the pipeline as data (confidence scores,
coverage ratios) are modelled as exact fractions kept in lowest terms by
a smart constructor, so that structural equality is value equality and
every operation evaluates by kernel reduction. -/

def natGcdFuel : Nat → Nat → Nat → Nat
  | 0, a, _ => a
  | f + 1, a, b => if b = 0 then a else natGcdFuel f b (a % b)

def natGcd (a b : Nat) : Nat := natGcdFuel (a + b + 1) a b

/-- A fraction in lowest terms with positive denominator (by
    construction through `mkFrac`). -/
structure Frac where
  num : Int
  den : Int
deriving DecidableEq, Repr

def mkFrac (n d : Int) : Frac :=
  if d = 0 then ⟨0, 1⟩
  else
    let n := if d < 0 then -n else n
    let d := if d < 0 then -d else d
    let g : Int := Int.ofNat (natGcd n.natAbs d.natAbs)
    if g = 0 then ⟨0, 1⟩ else ⟨n / g, d / g⟩

/-- Fraction literal `n / d`. -/
def fq (n d : Int) : Frac := mkFrac n d

instance : Zero Frac := ⟨⟨0, 1⟩⟩
instance : One Frac := ⟨⟨1, 1⟩⟩
instance : Add Frac := ⟨fun a b => mkFrac (a.num * b.den + b.num * a.den) (a.den * b.den)⟩
instance : Mul Frac := ⟨fun a b => mkFrac (a.num * b.num) (a.den * b.den)⟩
instance : Div Frac := ⟨fun a b => mkFrac (a.num * b.den) (a.den * b.num)⟩
instance : LT Frac := ⟨fun a b => a.num * b.den < b.num * a.den⟩
instance : LE Frac := ⟨fun a b => a.num * b.den ≤ b.num * a.den⟩

instance (a b : Frac) : Decidable (a < b) :=
  inferInstanceAs (Decidable (a.num * b.den < b.num * a.den))

instance (a b : Frac) : Decidable (a ≤ b) :=
  inferInstanceAs (Decidable (a.num * b.den ≤ b.num * a.den))

/-- `round` to the nearest integer (half away from zero only matters on
    exact halves, which the repository's values never hit; Python rounds
    those half-to-even). -/
def roundF (q : Frac) : Int := Int.ediv (2 * q.num + q.den) (2 * q.den)

/-- Python `round(q, 2)`. -/
def round2 (q : Frac) : Frac := mkFrac (roundF (q * fq 100 1)) 100

/-- Python `round(q, 3)`. -/
def round3 (q : Frac) : Frac := mkFrac (roundF (q * fq 1000 1)) 1000

/-! ## errors.py -/

/-- `ErrorCode` from errors.py. -/
inductive ErrorCode where
  | INVALID_INPUT
  | CONFIG_ERROR
  | GIT_ERROR
  | MODEL_NOT_AVAILABLE
  | QUALITY_GATE_FAILED
  | PARSE_ERROR
  | RUNTIME_ERROR
deriving DecidableEq, Repr

/-- `HackLuminaryError` from errors.py. -/
structure HLError where
  code : ErrorCode
  message : String
  hint : Option String := none
deriving DecidableEq, Repr

instance {ε α : Type} [DecidableEq ε] [DecidableEq α] : DecidableEq (Except ε α)
  | .ok a, .ok b =>
      if h : a = b then .isTrue (by rw [h])
      else .isFalse (fun hc => h (Except.ok.inj hc))
  | .error a, .error b =>
      if h : a = b then .isTrue (by rw [h])
      else .isFalse (fun hc => h (Except.error.inj hc))
  | .ok _, .error _ => .isFalse (fun hc => Except.noConfusion hc)
  | .error _, .ok _ => .isFalse (fun hc => Except.noConfusion hc)

/-! ## Slide/claim/visual data model (the dict shapes used across modules) -/

/-- A slide claim: `{"text": ..., "evidence_refs": [...], "confidence": ...}`. -/
structure Claim where
  text : String
  evidence_refs : List String
  confidence : Frac
deriving DecidableEq, Repr

/-- A slide visual produced by `_to_slide_visual` / `_sanitize_visuals`. -/
structure Visual where
  id : String
  type : String
  source_path : String
  alt : String
  caption : String
  evidence_refs : List String
  confidence : Frac
  width : Option Nat
  height : Option Nat
  sha256 : String
deriving DecidableEq, Repr

/-- A slide dict.  Keys that may be absent are `Option` fields. -/
structure Slide where
  id : String
  type : String
  title : String
  subtitle : Option String := none
  content : Option String := none
  list_items : Option (List String) := none
  evidence_refs : Option (List String) := none
  claims : Option (List Claim) := none
  notes : Option String := none
  visuals : Option (List Visual) := none
deriving DecidableEq, Repr

/-- `slide.get("evidence_refs", [])`. -/
def Slide.refsD (s : Slide) : List String := s.evidence_refs.getD []

/-- `slide.get("claims", [])`. -/
def Slide.claimsD (s : Slide) : List Claim := s.claims.getD []

/-- `slide.get("list_items", [])`. -/
def Slide.itemsD (s : Slide) : List String := s.list_items.getD []

/-- `slide.get("visuals", [])`. -/
def Slide.visualsD (s : Slide) : List Visual := s.visuals.getD []

/-- A media catalog entry as consumed by visual_selector.py / evidence.py. -/
structure Media where
  id : String
  source_path : String
  kind : String
  alt : String
  tags : List String
  evidence_refs : List String
  width : Option Nat
  height : Option Nat
  sha256 : String
deriving DecidableEq, Repr

/-! ## Upstream data records consumed by slides.py / evidence.py -/

/-- The dict returned by `CodebaseAnalyzer.analyze`. -/
structure Analysis where
  project_name : String
  languages : List (String × Nat)
  primary_language : String
  file_count : Nat
  total_lines : Nat
  key_files : List String
  dependencies : List String
  frameworks : List String
  features : List String
  docs_count : Nat
  config_count : Nat
  warnings : List String
deriving DecidableEq, Repr

/-- The dict returned by `DocumentParser.parse` (warnings threaded separately). -/
structure DocData where
  title : String
  description : String
  problem : String
  solution : String
  features : List String
  impact_points : List String
  future_items : List String
  installation : String
  usage : String
deriving DecidableEq, Repr

/-- The payload dict built by `collect_git_context`. -/
structure GitPayload where
  available : Bool
  branch : String
  base_branch : String
  head_sha : String
  base_sha : String
  changed_files_count : Nat
  top_changed_paths : List String
  change_summary : String
  warnings : List String
deriving DecidableEq, Repr

/-! ## slides.py -/

def ALL_SLIDE_TYPES : List String :=
  ["title", "problem", "solution", "demo", "impact", "tech", "future", "delta", "closing"]

def PRIORITY_ORDER : List String :=
  ["title", "problem", "solution", "demo", "tech", "impact", "delta", "future", "closing"]

/-- `resolve_slide_types` from slides.py. -/
def resolve_slide_types (requested : Option (List String)) (max_slides : Option Int)
    (has_git_context : Bool) : List String :=
  let selected :=
    match requested with
    | some req =>
        if req ≠ [] then
          let requested_clean := (req.map pyStrip).filter (fun item => item ≠ "")
          requested_clean.filter (fun item => item ∈ ALL_SLIDE_TYPES)
        else
          ALL_SLIDE_TYPES.filter (fun item => has_git_context ∨ item ≠ "delta")
    | none => ALL_SLIDE_TYPES.filter (fun item => has_git_context ∨ item ≠ "delta")
  let selected :=
    if ¬ has_git_context ∧ "delta" ∈ selected then
      selected.filter (fun item => item ≠ "delta")
    else selected
  match max_slides with
  | some ms =>
      if ms ≠ 0 ∧ ms > 0 ∧ ms < selected.length then
        let priority_subset := (PRIORITY_ORDER.filter (fun item => item ∈ selected)).take ms.toNat
        ALL_SLIDE_TYPES.filter (fun item => item ∈ priority_subset)
      else selected
  | none => selected

/-- `_refs` from slides.py: keep only candidates present in the evidence id set. -/
def refsFilter (candidates : List String) (evidence_ids : List String) : List String :=
  candidates.filter (fun item => item ∈ evidence_ids)

/-- `_claim_from_text` from slides.py. -/
def claim_from_text (text : String) (evidence_refs : List String) (confidence : Frac) : Claim :=
  { text := pyStrip text
    evidence_refs := evidence_refs
    confidence := round2 confidence }

/-- `_title_slide` from slides.py. -/
def title_slide (code_analysis : Analysis) (doc_data : DocData) (git_context : GitPayload)
    (evidence_ids : List String) : Slide :=
  let subtitle := pyOr doc_data.description
    "Hackathon-ready presentation generated from local project evidence."
  let subtitle := pySlice (pyStrip subtitle) 220
  let subtitle :=
    if git_context.available ∧ git_context.branch ≠ "" then
      subtitle ++ " Current branch: " ++ git_context.branch ++ "."
    else subtitle
  let evidence_refs := refsFilter ["doc.title", "doc.description", "git.branch"] evidence_ids
  { id := "title"
    type := "title"
    title := pyOr doc_data.title (pyOr code_analysis.project_name "Project")
    subtitle := some subtitle
    evidence_refs := some evidence_refs
    claims := some [claim_from_text subtitle evidence_refs (fq 93 100)] }

/-- `_problem_slide` from slides.py. -/
def problem_slide (doc_data : DocData) (evidence_ids : List String) : Slide :=
  let content := pyOr doc_data.problem
    ("Teams lose demo time because project context is scattered across code, docs, and commits. "
      ++ "The goal is to turn repository evidence into a concise story quickly.")
  let evidence_refs := refsFilter ["doc.problem", "doc.description", "repo.project"] evidence_ids
  { id := "problem"
    type := "content"
    title := "The Problem"
    content := some content
    evidence_refs := some evidence_refs
    claims := some [claim_from_text content evidence_refs (fq 9 10)] }

/-- `_solution_slide` from slides.py. -/
def solution_slide (code_analysis : Analysis) (doc_data : DocData)
    (evidence_ids : List String) : Slide :=
  let primary := pyOr code_analysis.primary_language "modern tooling"
  let solution := pyOr doc_data.solution
    ("This workflow produces deterministic slides from repository facts and optional local AI refinement, "
      ++ "keeping outputs reproducible while adapting narrative quality for " ++ primary ++ " projects.")
  let evidence_refs :=
    refsFilter ["doc.solution", "repo.languages", "repo.frameworks", "repo.project"] evidence_ids
  { id := "solution"
    type := "content"
    title := "Our Solution"
    content := some solution
    evidence_refs := some evidence_refs
    claims := some [claim_from_text solution evidence_refs (fq 9 10)] }

/-- `_demo_slide` from slides.py. -/
def demo_slide (code_analysis : Analysis) (doc_data : DocData)
    (evidence_ids : List String) : Slide :=
  let features := (doc_data.features.map pyStrip).filter (fun item => item ≠ "")
  let features := code_analysis.features.foldl
    (fun acc item => if item ∈ acc then acc else acc ++ [item]) features
  let features :=
    if features = [] then
      ["Deterministic parsing of project source and documentation",
       "Branch-aware context from local git history",
       "Offline-first rendering with no runtime CDN dependencies",
       "JSON schema output suitable for automation"]
    else features
  let evidence_refs :=
    refsFilter ["doc.features", "repo.features", "repo.dependencies", "repo.project"] evidence_ids
  let claims := (features.take 7).map
    (fun item => claim_from_text item evidence_refs (fq 88 100))
  { id := "demo"
    type := "list"
    title := "Key Features"
    list_items := some (features.take 7)
    evidence_refs := some evidence_refs
    claims := some claims }

/-- `_impact_slide` from slides.py. -/
def impact_slide (doc_data : DocData) (evidence_ids : List String) : Slide :=
  let points := (doc_data.impact_points.map pyStrip).filter (fun item => item ≠ "")
  let points :=
    if points = [] then
      ["Cuts presentation prep time from hours to minutes",
       "Improves narrative consistency across team members",
       "Keeps technical claims traceable to repository evidence",
       "Works reliably in low-connectivity hackathon environments"]
    else points
  let evidence_refs := refsFilter ["doc.description", "repo.files", "repo.lines"] evidence_ids
  let claims := (points.take 6).map (fun item => claim_from_text item evidence_refs (fq 86 100))
  { id := "impact"
    type := "list"
    title := "Impact & Benefits"
    list_items := some (points.take 6)
    evidence_refs := some evidence_refs
    claims := some claims }

/-- `_tech_slide` from slides.py. -/
def tech_slide (code_analysis : Analysis) (evidence_ids : List String) : Slide :=
  let langs := code_analysis.languages
  let frameworks := code_analysis.frameworks
  let deps := code_analysis.dependencies
  let primary := code_analysis.primary_language
  let items : List String := []
  let items := if primary ≠ "" ∧ primary ≠ "Unknown" then
      items ++ ["Primary language: " ++ primary] else items
  let items := if langs ≠ [] then
      let lang_summary := String.intercalate ", "
        ((langs.take 5).map (fun nc => nc.1 ++ " (" ++ toString nc.2 ++ ")"))
      items ++ ["Language distribution: " ++ lang_summary]
    else items
  let items := if frameworks ≠ [] then
      items ++ ["Frameworks: " ++ String.intercalate ", " (frameworks.take 6)] else items
  let items := if deps ≠ [] then
      items ++ ["Dependencies: " ++ String.intercalate ", " (deps.take 8)] else items
  let files := code_analysis.file_count
  let lines := code_analysis.total_lines
  let items := items ++
    ["Scale: " ++ toString files ++ " source files, " ++ natComma lines ++ " lines"]
  let evidence_refs := refsFilter
    ["repo.languages", "repo.frameworks", "repo.dependencies", "repo.files", "repo.lines"]
    evidence_ids
  let claims := items.map (fun item => claim_from_text item evidence_refs (fq 92 100))
  { id := "tech"
    type := "list"
    title := "Technology Stack"
    list_items := some items
    evidence_refs := some evidence_refs
    claims := some claims }

/-- `_future_slide` from slides.py. -/
def future_slide (code_analysis : Analysis) (doc_data : DocData)
    (evidence_ids : List String) : Slide :=
  let items := (doc_data.future_items.map pyStrip).filter (fun item => item ≠ "")
  let items :=
    if items = [] then
      ["Add richer repository analysis for architecture-level insights",
       "Expand local model catalog and speed profiles for laptops",
       "Improve quality gates with domain-specific heuristics",
       "Ship stronger team templates for common hackathon judging tracks"]
    else items
  let items :=
    if code_analysis.frameworks ≠ [] then
      items ++ ["Harden framework-specific storytelling templates"]
    else items
  let evidence_refs :=
    refsFilter ["repo.frameworks", "repo.features", "doc.solution", "repo.files"] evidence_ids
  let claims := (items.take 6).map (fun item => claim_from_text item evidence_refs (fq 8 10))
  { id := "future"
    type := "list"
    title := "Future Plans"
    list_items := some (items.take 6)
    evidence_refs := some evidence_refs
    claims := some claims }

/-- `_delta_slide` from slides.py. -/
def delta_slide (git_context : GitPayload) (evidence_ids : List String) : Slide :=
  let changed := git_context.changed_files_count
  let branch := pyOr git_context.branch "unknown"
  let base := pyOr git_context.base_branch "unknown"
  let items :=
    ["Branch: " ++ branch,
     "Base branch: " ++ base,
     pyOr git_context.change_summary "No change summary available."]
  let top_paths := git_context.top_changed_paths
  let items :=
    if top_paths ≠ [] then
      items ++ ["Top changed paths: " ++ String.intercalate ", " (top_paths.take 5)]
    else if changed = 0 then
      items ++ ["No changed files detected relative to base branch."]
    else items
  let evidence_refs := refsFilter
    ["git.branch", "git.base_branch", "git.changed_files", "git.change_summary"] evidence_ids
  let claims := items.map (fun item => claim_from_text item evidence_refs (fq 95 100))
  { id := "delta"
    type := "list"
    title := "Branch Delta"
    list_items := some items
    evidence_refs := some evidence_refs
    claims := some claims }

/-- `_closing_slide` from slides.py. -/
def closing_slide (code_analysis : Analysis) (doc_data : DocData) (git_context : GitPayload)
    (evidence_ids : List String) : Slide :=
  let language := code_analysis.primary_language
  let branch := git_context.branch
  let subtitle := doc_data.title ++ " · Built with " ++ language
  let subtitle := if branch ≠ "" then subtitle ++ " · Branch " ++ branch else subtitle
  let evidence_refs := refsFilter ["repo.languages", "git.branch", "doc.title"] evidence_ids
  { id := "closing"
    type := "closing"
    title := "Thank You"
    subtitle := some subtitle
    evidence_refs := some evidence_refs
    claims := some [claim_from_text subtitle evidence_refs (fq 85 100)] }

/-- `_derive_claims` from slides.py. -/
def derive_claims (slide : Slide) : List Claim :=
  let refs := slide.refsD
  if slide.type ∈ ["content", "problem", "solution"] then
    let content := slide.content.getD ""
    if pyStrip content ≠ "" then [claim_from_text content refs (fq 84 100)] else []
  else if slide.type ∈ ["list", "tech", "delta", "demo", "impact", "future"] then
    ((slide.itemsD.take 8).filter (fun item => pyStrip item ≠ "")).map
      (fun item => claim_from_text item refs (fq 82 100))
  else
    let subtitle := slide.subtitle.getD ""
    if pyStrip subtitle ≠ "" then [claim_from_text subtitle refs (fq 8 10)] else []

/-- The `setdefault` block at the end of `build_deterministic_slides`.
    (`setdefault("id", ...)` is a no-op because every creator sets `id`,
    which the `id : String` field records.) -/
def slideSetdefaults (s : Slide) : Slide :=
  let s := { s with evidence_refs := some s.refsD }
  let s := { s with claims := some (s.claims.getD (derive_claims s)) }
  { s with notes := some (s.notes.getD "") }

/-- `build_deterministic_slides` from slides.py. -/
def build_deterministic_slides (code_analysis : Analysis) (doc_data : DocData)
    (git_context : GitPayload) (evidence_ids : List String)
    (slide_types : List String) : List Slide :=
  let slides := slide_types.filterMap (fun slide_type =>
    if slide_type = "title" then some (title_slide code_analysis doc_data git_context evidence_ids)
    else if slide_type = "problem" then some (problem_slide doc_data evidence_ids)
    else if slide_type = "solution" then some (solution_slide code_analysis doc_data evidence_ids)
    else if slide_type = "demo" then some (demo_slide code_analysis doc_data evidence_ids)
    else if slide_type = "impact" then some (impact_slide doc_data evidence_ids)
    else if slide_type = "tech" then some (tech_slide code_analysis evidence_ids)
    else if slide_type = "future" then some (future_slide code_analysis doc_data evidence_ids)
    else if slide_type = "delta" then some (delta_slide git_context evidence_ids)
    else if slide_type = "closing" then
      some (closing_slide code_analysis doc_data git_context evidence_ids)
    else none)
  slides.map slideSetdefaults

/-! ## config.py (the resolved-config record consumed by the pipeline) -/

structure GeneralCfg where
  mode : String
  format : String
  theme : String
  max_slides : Option Int
  strict_quality : Bool
deriving DecidableEq, Repr

structure GitCfg where
  base_branch : Option String
  include_branch_context : Bool
deriving DecidableEq, Repr

structure AiCfg where
  enabled : Bool
  backend : String
  model_alias : String
deriving DecidableEq, Repr

structure ImagesCfg where
  enabled : Bool
  mode : String
  max_images_per_slide : Int
  min_confidence : Frac
  visual_style : String
deriving DecidableEq, Repr

/-- The slice of the resolved configuration that `run_generation`,
    `enhance_slides_with_ai` and `attach_visuals_to_slides` read. -/
structure Config where
  general : GeneralCfg
  git : GitCfg
  ai : AiCfg
  images : ImagesCfg
deriving DecidableEq, Repr

/-! ## quality.py (modelled)

Modelled from the spec: `hackluminary/quality.py` is imported by
pipeline.py, ai_pipeline.py and studio_server.py but the module itself is
absent from the sources.  `evaluate_quality` and `enforce_quality` are
therefore modelled from spec §4.8 ("a fixed list of rule checks (banned
hype phrases, missing evidence refs, image coverage thresholds, missing
alt text under strict mode) and aggregates into pass/fail plus metrics"),
spec §8 ("Quality gate returns \"fail\" when slide content contains a
banned hype phrase (e.g., \"revolutionary\")") and the shapes asserted by
tests/test_quality_visuals.py (metrics `image_coverage`,
`slides_without_visual`, `visual_confidence_mean`; strict-mode coverage
and alt-text errors). -/

structure QMetrics where
  image_coverage : Frac
  slides_without_visual : List String
  visual_confidence_mean : Frac
deriving DecidableEq, Repr

structure QReport where
  status : String
  errors : List String
  warnings : List String
  metrics : QMetrics
deriving DecidableEq, Repr

/-- Modelled from the spec: the banned hype phrase list; the spec names
    "revolutionary" as an example. -/
def BANNED_HYPE_PHRASES : List String :=
  ["revolutionary", "game-changing", "groundbreaking", "disruptive", "world-class"]

/-- Modelled from the spec: does a slide's visible text contain the phrase? -/
def slideHasHype (s : Slide) (phrase : String) : Bool :=
  strContainsSub (pyLower s.title) phrase ∨
  strContainsSub (pyLower (s.subtitle.getD "")) phrase ∨
  strContainsSub (pyLower (s.content.getD "")) phrase ∨
  s.itemsD.any (fun item => strContainsSub (pyLower item) phrase)

/-- Modelled from the spec: `evaluate_quality(slides, image_mode, min_visual_confidence)`. -/
def evaluate_quality (slides : List Slide) (image_mode : String)
    (min_visual_confidence : Frac) : QReport :=
  let hype_errors := slides.bind (fun s =>
    (BANNED_HYPE_PHRASES.filter (fun p => slideHasHype s p)).map (fun p =>
      "Slide '" ++ s.id ++ "' contains banned hype phrase '" ++ p ++ "'."))
  let ref_warnings := (slides.filter (fun s => s.refsD = [])).map (fun s =>
    "Slide '" ++ s.id ++ "' has no evidence refs.")
  let with_visual := slides.filter (fun s => s.visualsD ≠ [])
  let coverage : Frac :=
    if slides.length = 0 then 1
    else mkFrac (with_visual.length : Int) (slides.length : Int)
  let without_visual := (slides.filter (fun s => s.visualsD = [])).map (fun s => s.id)
  let confs := slides.bind (fun s => s.visualsD.map (fun v => v.confidence))
  let mean : Frac :=
    if confs.length = 0 then 0 else confs.sum / mkFrac (confs.length : Int) 1
  let low_conf_warnings := (confs.filter (fun c => c < min_visual_confidence)).map
    (fun _ => "A visual sits below the configured confidence threshold.")
  let strict_errors :=
    if image_mode = "strict" then
      (if coverage < fq 6 10 then
        ["Image coverage below required threshold for strict mode."] else []) ++
      slides.bind (fun s => (s.visualsD.filter (fun v => pyStrip v.alt = "")).map (fun v =>
        "Visual '" ++ v.id ++ "' is missing alt text."))
    else []
  let errors := hype_errors ++ strict_errors
  { status := if errors = [] then "pass" else "fail"
    errors := errors
    warnings := ref_warnings ++ low_conf_warnings
    metrics :=
      { image_coverage := coverage
        slides_without_visual := without_visual
        visual_confidence_mean := mean } }

/-- Modelled from the spec: `enforce_quality` aborts on a failing report
    when strict ("quality-gate failures abort the run", spec §7). -/
def enforce_quality (report : QReport) (strict : Bool) : Except HLError Unit :=
  if strict ∧ report.status = "fail" then
    .error { code := .QUALITY_GATE_FAILED, message := "Quality gate failed." }
  else .ok ()

/-! ## visual_selector.py

`score_media_for_slide` computes IEEE-754 float scores through
`math.sqrt`; it is abstracted as the `score` parameter below.  Every
claim about `attach_visuals_to_slides` in scope quantifies over all score
assignments ("regardless of any media confidence score"), so the
abstraction is faithful for them. -/

/-- `str(mode or "off").lower()`. -/
def normMode (mode : String) : String := pyLower (if mode = "" then "off" else mode)

/-- `int(max_images_per_slide or 1)` — Python `or` treats 0 as falsy. -/
def pyIntOr1 (n : Int) : Int := if n = 0 then 1 else n

/-- `_is_visual_eligible_slide` from visual_selector.py. -/
def is_visual_eligible_slide (slide : Slide) : Bool :=
  ¬ (pyLower slide.type = "title" ∨ pyLower slide.type = "closing")

/-- `_eligible_slide_count` from visual_selector.py. -/
def eligible_slide_count (slides : List Slide) : Nat :=
  (slides.filter (fun s => is_visual_eligible_slide s)).length

/-- `source_path.rsplit("/", 1)[-1]`. -/
def lastSlashComponent (s : String) : String := ((strSplitOn s "/").getLast?).getD s

/-- `name.rsplit(".", 1)[0]`. -/
def dropLastDotExt (s : String) : String :=
  let parts := strSplitOn s "."
  if parts.length ≤ 1 then s else String.intercalate "." parts.dropLast

/-- `_to_slide_visual` from visual_selector.py. -/
def to_slide_visual (slide : Slide) (media : Media) (confidence : Frac) : Visual :=
  let source_path := media.source_path
  let alt := pyStrip media.alt
  let alt := if alt = "" then
      "Visual for " ++ pyOr (pyStrip slide.title) "slide"
    else alt
  let caption := alt
  let caption :=
    if source_path ≠ "" then
      let stem :=
        strReplace (strReplace (dropLastDotExt (lastSlashComponent source_path)) "-" " ") "_" " "
      if stem ≠ "" ∧ pyLower stem ≠ pyLower alt then alt ++ " (" ++ stem ++ ")" else caption
    else caption
  { id := media.id
    type := "image"
    source_path := source_path
    alt := alt
    caption := pySlice caption 160
    evidence_refs := slide.refsD.take 3
    confidence := confidence
    width := media.width
    height := media.height
    sha256 := media.sha256 }

/-- The sort key `(-score, media id)` used by `attach_visuals_to_slides`,
    as a boolean total preorder for the stable sort. -/
def scoreLe (a b : Frac × Media) : Bool :=
  decide (b.1 < a.1) || (decide (a.1 = b.1) && strLeB a.2.id b.2.id)

/-- The candidate loop inside `attach_visuals_to_slides`: skip scores
    below the confidence floor, stop once `max_images` are chosen. -/
def chooseLoop (slide : Slide) (min_confidence : Frac) (max_images : Int) :
    List (Frac × Media) → List Visual → List Visual
  | [], chosen => chosen
  | (sc, m) :: rest, chosen =>
      if sc < min_confidence then chooseLoop slide min_confidence max_images rest chosen
      else
        let chosen := chosen ++ [to_slide_visual slide m sc]
        if max_images ≤ (chosen.length : Int) then chosen
        else chooseLoop slide min_confidence max_images rest chosen

/-- The per-slide body of the attachment loop. -/
def attachOne (score : Slide → Media → Frac) (media_catalog : List Media)
    (normalized_mode : String) (max_images : Int) (min_confidence : Frac) (slide : Slide) : Slide :=
  if ¬ is_visual_eligible_slide slide then { slide with visuals := some [] }
  else
    let scores := pySorted scoreLe (media_catalog.map (fun m => (score slide m, m)))
    let chosen := chooseLoop slide min_confidence max_images scores []
    let chosen :=
      if chosen = [] ∧ normalized_mode = "strict" then
        match scores.find? (fun p => min_confidence ≤ p.1) with
        | some p => [to_slide_visual slide p.2 p.1]
        | none => []
      else chosen
    { slide with visuals := some chosen }

structure VisualSummary where
  attached : Nat
  eligible_slides : Nat
deriving DecidableEq, Repr

/-- `attach_visuals_to_slides` from visual_selector.py, with the float
    scorer abstracted as `score`. -/
def attach_visuals_to_slides (score : Slide → Media → Frac) (slides : List Slide)
    (media_catalog : List Media) (mode : String) (max_images_per_slide : Int)
    (min_confidence : Frac) : List Slide × VisualSummary :=
  let normalized_mode := normMode mode
  let max_images := max 0 (min (pyIntOr1 max_images_per_slide) 2)
  let copied := slides.map (fun s => { s with visuals := some s.visualsD })
  if normalized_mode = "off" ∨ max_images = 0 then
    (copied, { attached := 0, eligible_slides := 0 })
  else if media_catalog = [] then
    let cleared := copied.map (fun s => { s with visuals := some [] })
    (cleared, { attached := 0, eligible_slides := eligible_slide_count cleared })
  else
    let result := copied.map
      (fun s => attachOne score media_catalog normalized_mode max_images min_confidence s)
    ( result
    , { attached := (result.map (fun s => s.visualsD.length)).sum
      , eligible_slides := eligible_slide_count result } )

/-! ## ai_pipeline.py -/

/-- A claim entry in the model's JSON reply (typed view of the dict). -/
structure MergeClaim where
  text : String
  evidence_refs : Option (List String)
  confidence : Option Frac
deriving DecidableEq, Repr

/-- A slide-update entry in the model's JSON reply.  Entries that are not
    dicts are skipped by the source loop and are elided from this typed
    view; a field is `none` when the key is absent (or, for the scalar
    fields, fails the `isinstance` check). -/
structure MergeUpdate where
  id : Option String
  title : Option String
  subtitle : Option String
  content : Option String
  list_items : Option (List String)
  claims : Option (List MergeClaim)
  notes : Option String
deriving DecidableEq, Repr

/-- The model's JSON reply: `payload.get("slides")` is `none` when the
    key is missing or not a list. -/
structure MergePayload where
  slides : Option (List MergeUpdate)
deriving DecidableEq, Repr

/-- Insert-or-overwrite into an insertion-ordered dict. -/
def dictInsert (m : List (String × Slide)) (k : String) (v : Slide) : List (String × Slide) :=
  if m.any (fun p => p.1 = k) then m.map (fun p => if p.1 = k then (k, v) else p)
  else m ++ [(k, v)]

/-- Dict lookup. -/
def dictGet (m : List (String × Slide)) (k : String) : Option Slide :=
  (m.find? (fun p => p.1 = k)).map (fun p => p.2)

/-- The per-update body of `_merge_ai_payload`. -/
def applyMergeUpdate (m : List (String × Slide)) (u : MergeUpdate) : List (String × Slide) :=
  match u.id with
  | none => m
  | some sid =>
    match dictGet m sid with
    | none => m
    | some target =>
      let target := match u.title with
        | some v => if pyStrip v ≠ "" then { target with title := pyStrip v } else target
        | none => target
      let target := match u.subtitle with
        | some v => if pyStrip v ≠ "" then { target with subtitle := some (pyStrip v) } else target
        | none => target
      let target := match u.content with
        | some v => if pyStrip v ≠ "" then { target with content := some (pyStrip v) } else target
        | none => target
      let target := match u.list_items with
        | some l =>
            let cleaned := (l.map pyStrip).filter (fun item => item ≠ "")
            if cleaned ≠ [] then { target with list_items := some (cleaned.take 8) } else target
        | none => target
      let target := match u.claims with
        | some cl =>
            let cleaned_claims := (cl.take 10).filterMap (fun c =>
              let text := pyStrip c.text
              if text = "" then none
              else some
                { text := text
                  evidence_refs :=
                    ((c.evidence_refs.getD target.refsD).map pyStrip).filter (fun r => r ≠ "")
                  confidence := c.confidence.getD (fq 8 10) })
            if cleaned_claims ≠ [] then { target with claims := some cleaned_claims } else target
        | none => target
      let target := match u.notes with
        | some n => { target with notes := some (pySlice (pyStrip n) 600) }
        | none => target
      dictInsert m sid target

/-- `_merge_ai_payload` from ai_pipeline.py. -/
def merge_ai_payload (slides : List Slide) (payload : MergePayload) :
    Except HLError (List Slide) :=
  match payload.slides with
  | none => .error
      { code := .PARSE_ERROR
        message := "AI response does not include a valid 'slides' list." }
  | some updates =>
      let slide_map := slides.foldl (fun m s => dictInsert m s.id s) []
      let slide_map := updates.foldl applyMergeUpdate slide_map
      .ok (slides.map (fun s => (dictGet slide_map s.id).getD s))

/-- The two exception classes observed by `enhance_slides_with_ai`'s
    handlers: a typed `HackLuminaryError` or any other exception. -/
inductive AiFailure where
  | hl (e : HLError)
  | generic (msg : String)
deriving DecidableEq, Repr

def QReport.appendWarning (r : QReport) (w : String) : QReport :=
  { r with warnings := r.warnings ++ [w] }

/-- `enhance_slides_with_ai` from ai_pipeline.py.  `model_path` is the
    result of `resolve_model_path` (a registry file lookup) and
    `genResult` the outcome of `backend.generate_json` (the llama.cpp
    subprocess), both I/O oracles. -/
def enhance_slides_with_ai (slides : List Slide) (config : Config)
    (model_path : Option String) (genResult : Except AiFailure MergePayload) :
    Except HLError (List Slide × QReport) :=
  let mode := config.general.mode
  let strict_quality := config.general.strict_quality
  let ai_enabled := config.ai.enabled
  if mode = "deterministic" ∨ ¬ ai_enabled then
    let report := evaluate_quality slides "off" (fq 72 100)
    match enforce_quality report strict_quality with
    | .ok _ => .ok (slides, report)
    | .error e => .error e
  else if config.ai.backend ≠ "llama.cpp" then
    .error { code := .MODEL_NOT_AVAILABLE
             message := "Unsupported AI backend '" ++ config.ai.backend ++ "'." }
  else
    match model_path with
    | none => .error
        { code := .MODEL_NOT_AVAILABLE
          message := "Local model alias '" ++ config.ai.model_alias ++ "' is not installed."
          hint := some ("Run: hackluminary models install " ++ config.ai.model_alias) }
    | some _ =>
      let attempt : Except AiFailure (List Slide) :=
        match genResult with
        | .error e => .error e
        | .ok payload =>
          match merge_ai_payload slides payload with
          | .ok merged => .ok merged
          | .error e => .error (.hl e)
      match attempt with
      | .ok merged =>
          let report := evaluate_quality merged "off" (fq 72 100)
          (match enforce_quality report strict_quality with
           | .ok _ => .ok (merged, report)
           | .error e => .error e)
      | .error (.hl e) =>
          if mode = "hybrid" ∧ ¬ strict_quality then
            .ok (slides, (evaluate_quality slides "off" (fq 72 100)).appendWarning
              "AI enhancement was skipped due to backend or schema issues.")
          else .error e
      | .error (.generic msg) =>
          if mode = "hybrid" ∧ ¬ strict_quality then
            .ok (slides, (evaluate_quality slides "off" (fq 72 100)).appendWarning
              ("AI enhancement skipped: " ++ msg))
          else .error
            { code := .RUNTIME_ERROR
              message := "AI enhancement failed."
              hint := some msg }

/-! ## evidence.py -/

/-- The value slot of an evidence record (str / int / list / the languages
    dict / the media-asset dict of `build_evidence`). -/
inductive EvValue where
  | vStr (s : String)
  | vNat (n : Nat)
  | vList (l : List String)
  | vLangs (l : List (String × Nat))
  | vMedia (source_path : String) (sha256 : String)
      (width : Option Nat) (height : Option Nat) (tags : List String)
deriving DecidableEq, Repr

/-- Python `value in (None, "", [], {})` for the values that reach `add`
    (no `None` can reach it: every source dict key is always present). -/
def evFalsy : EvValue → Bool
  | .vStr s => s = ""
  | .vNat _ => false
  | .vList l => l = []
  | .vLangs l => l = []
  | .vMedia _ _ _ _ _ => false

/-- `json.dumps(n_or_null)` for an optional dimension. -/
def jsonOptNat : Option Nat → String
  | some n => toString n
  | none => "null"

/-- `json.dumps(tags, indent=2)` at nesting depth 1. -/
def jsonTags (tags : List String) : String :=
  if tags = [] then "[]"
  else "[\n" ++ String.intercalate ",\n" (tags.map (fun t => "    \"" ++ t ++ "\"")) ++ "\n  ]"

/-- `_value_to_snippet` from evidence.py (`json.dumps(value, indent=2)` is
    rendered for the two dict shapes that occur; string escaping is not
    modelled because the snippets are display-only). -/
def value_to_snippet (value : EvValue) : String :=
  let text :=
    match value with
    | .vStr s => pyStrip s
    | .vNat n => toString n
    | .vList l => String.intercalate "\n" l
    | .vLangs l =>
        "\x7b\n" ++
          String.intercalate ",\n" (l.map (fun kv => "  \"" ++ kv.1 ++ "\": " ++ toString kv.2)) ++
        "\n\x7d"
    | .vMedia sp sha w h tags =>
        "\x7b\n  \"source_path\": \"" ++ sp ++ "\",\n  \"sha256\": \"" ++ sha ++
        "\",\n  \"width\": " ++ jsonOptNat w ++ ",\n  \"height\": " ++ jsonOptNat h ++
        ",\n  \"tags\": " ++ jsonTags tags ++ "\n\x7d"
  pySlice text 320

/-- Python `hay.find(pat)` on character lists. -/
def findSubAux : List Char → List Char → Nat → Option Nat
  | [], pat, i => if pat = [] then some i else none
  | c :: rest, pat, i =>
      if charPre pat (c :: rest) then some i else findSubAux rest pat (i + 1)

def strFind (hay pat : String) : Option Nat := findSubAux hay.data pat.data 0

/-- Count newline characters among the first `n` characters. -/
def countNewlinesIn (l : List Char) (n : Nat) : Nat :=
  ((l.take n).filter (fun c => c = '\n')).length

/-- `_line_span` from evidence.py. -/
def line_span (source_text snippet : String) : Option Nat × Option Nat :=
  if source_text = "" ∨ snippet = "" then (none, none)
  else
    let clean_snippet := pyStrip snippet
    if clean_snippet = "" then (none, none)
    else
      match strFind source_text clean_snippet with
      | none => (none, none)
      | some idx =>
          let start_line := countNewlinesIn source_text.data idx + 1
          (some start_line, some (start_line + (clean_snippet.data.filter (fun c => c = '\n')).length))

/-- An evidence record. -/
structure Evidence where
  id : String
  type : String
  title : String
  value : EvValue
  source_path : String
  source_kind : String
  start_line : Option Nat
  end_line : Option Nat
  snippet : String
  snippet_hash : String
deriving DecidableEq, Repr

/-- The `add` closure of `build_evidence`; `sha1hex` abstracts
    `hashlib.sha1(...).hexdigest()`. -/
def addEvidence (sha1hex : String → String) (acc : List Evidence)
    (item_id item_type title : String) (value : EvValue)
    (source_kind : String) (source_path : String) (source_text : String) : List Evidence :=
  if evFalsy value then acc
  else
    let snippet := value_to_snippet value
    let span := line_span source_text snippet
    acc ++ [{ id := item_id
              type := item_type
              title := title
              value := value
              source_path := source_path
              source_kind := source_kind
              start_line := span.1
              end_line := span.2
              snippet := snippet
              snippet_hash := sha1hex snippet }]

/-- `build_evidence` from evidence.py.  `readme_rel`/`readme_text` are the
    located README's relative path and contents ("" when absent) and
    `read_key_file` the file-read oracle for key-file snippets. -/
def build_evidence (sha1hex : String → String) (code_analysis : Analysis)
    (doc_data : DocData) (git_context : GitPayload)
    (readme_rel : String) (readme_text : String)
    (read_key_file : String → Option String)
    (media_catalog : List Media) : List Evidence :=
  let ev : List Evidence := []
  let ev := addEvidence sha1hex ev "repo.project" "repo" "Project Name"
    (.vStr code_analysis.project_name) "code" "" ""
  let ev := addEvidence sha1hex ev "repo.files" "repo" "Source File Count"
    (.vNat code_analysis.file_count) "code" "" ""
  let ev := addEvidence sha1hex ev "repo.lines" "repo" "Total Source Lines"
    (.vNat code_analysis.total_lines) "code" "" ""
  let ev := addEvidence sha1hex ev "repo.languages" "repo" "Languages"
    (.vLangs code_analysis.languages) "code" "" ""
  let ev := addEvidence sha1hex ev "repo.frameworks" "repo" "Frameworks"
    (.vList code_analysis.frameworks) "code" "" ""
  let ev := addEvidence sha1hex ev "repo.dependencies" "repo" "Dependencies"
    (.vList code_analysis.dependencies) "code" "" ""
  let ev := addEvidence sha1hex ev "repo.features" "repo" "Detected Features"
    (.vList code_analysis.features) "code" "" ""
  let ev := addEvidence sha1hex ev "doc.title" "documentation" "README Title"
    (.vStr doc_data.title) "readme" readme_rel readme_text
  let ev := addEvidence sha1hex ev "doc.description" "documentation" "Project Description"
    (.vStr doc_data.description) "readme" readme_rel readme_text
  let ev := addEvidence sha1hex ev "doc.problem" "documentation" "Problem Statement"
    (.vStr doc_data.problem) "readme" readme_rel readme_text
  let ev := addEvidence sha1hex ev "doc.solution" "documentation" "Solution Statement"
    (.vStr doc_data.solution) "readme" readme_rel readme_text
  let ev := addEvidence sha1hex ev "doc.features" "documentation" "Documented Features"
    (.vList doc_data.features) "readme" readme_rel readme_text
  let key_list := (code_analysis.key_files.take 3).enum
  let ev := key_list.foldl (fun acc pair =>
    let relative := pair.2
    let idx := pair.1 + 1
    match read_key_file relative with
    | none => acc
    | some text =>
        let lines := pySplitlines text
        let snippet := pyStrip (String.intercalate "\n" (lines.take 12))
        if snippet = "" then acc
        else addEvidence sha1hex acc ("code.key." ++ toString idx) "code"
          ("Key File Snippet: " ++ relative) (.vStr snippet) "code" relative text) ev
  let ev := addEvidence sha1hex ev "git.branch" "git" "Current Branch"
    (.vStr git_context.branch) "git" ".git" ""
  let ev := addEvidence sha1hex ev "git.base_branch" "git" "Base Branch"
    (.vStr git_context.base_branch) "git" ".git" ""
  let ev := addEvidence sha1hex ev "git.head_sha" "git" "Head Commit"
    (.vStr git_context.head_sha) "git" ".git" ""
  let ev := addEvidence sha1hex ev "git.base_sha" "git" "Base Commit"
    (.vStr git_context.base_sha) "git" ".git" ""
  let ev := addEvidence sha1hex ev "git.changed_files" "git" "Changed Files"
    (.vList git_context.top_changed_paths) "git" ".git" ""
  let ev := addEvidence sha1hex ev "git.change_summary" "git" "Change Summary"
    (.vStr git_context.change_summary) "git" ".git" ""
  media_catalog.foldl (fun acc media =>
    let source_path := pyStrip media.source_path
    let media_id := pyStrip media.id
    let sha := pyStrip media.sha256
    if source_path = "" ∨ media_id = "" then acc
    else
      let title := lastSlashComponent source_path
      addEvidence sha1hex acc ("media." ++ pyOr (pySlice sha 12) media_id) "image"
        ("Image Asset: " ++ title)
        (.vMedia source_path sha media.width media.height media.tags)
        media.kind source_path media.alt) ev

/-- The key set of `evidence_index` (the pipeline only tests membership). -/
def evidenceIds (evidence : List Evidence) : List String := evidence.map (fun e => e.id)

/-! ## git_context.py -/

/-- Outcomes of the individual git subprocess invocations: `.error msg`
    is a raised `CalledProcessError` (its rendered message), `.ok out` the
    raw stdout. -/
structure GitOracle where
  is_inside_work_tree : Except String String
  branch : Except String String
  head_sha : Except String String
  ref_exists : String → Bool
  merge_base : Except String String
  diff_names : Except String String

/-- `_run_git` returns `completed.stdout.strip()`. -/
def runGitCall (r : Except String String) : Except String String :=
  match r with
  | .ok out => .ok (pyStrip out)
  | .error e => .error e

/-- `detect_base_branch` from git_context.py. -/
def detect_base_branch (o : GitOracle) (preferred : Option String) : Option String :=
  match preferred with
  | some p =>
      if p ≠ "" then (if o.ref_exists p then some p else none)
      else ["main", "master", "origin/main", "origin/master"].find? o.ref_exists
  | none => ["main", "master", "origin/main", "origin/master"].find? o.ref_exists

/-- `summarize_changes` from git_context.py. -/
def summarize_changes (changed_paths : List String) : String :=
  if changed_paths = [] then "No file changes detected compared to the base branch."
  else
    let bucketOf : String → String := fun path =>
      let lower := pyLower path
      if [".md", ".rst", ".txt"].any (fun e => strEndsWith lower e) then "docs"
      else if [".json", ".toml", ".yaml", ".yml", ".ini"].any (fun e => strEndsWith lower e) then "config"
      else if [".js", ".jsx", ".ts", ".tsx", ".css", ".scss", ".html", ".vue"].any
        (fun e => strEndsWith lower e) then "frontend"
      else if [".py", ".go", ".rs", ".java", ".rb", ".php", ".cs"].any
        (fun e => strEndsWith lower e) then "backend"
      else "other"
    let countB : String → Nat := fun name =>
      (changed_paths.filter (fun p => bucketOf p = name)).length
    let non_zero := (["backend", "frontend", "docs", "config", "other"].filter
      (fun name => countB name ≠ 0)).map (fun name => name ++ ":" ++ toString (countB name))
    let category_breakdown :=
      if non_zero ≠ [] then String.intercalate ", " non_zero else "other:0"
    toString changed_paths.length ++ " files changed (" ++ category_breakdown ++ ")."

/-- The initial payload dict of `collect_git_context`. -/
def gitPayloadInit : GitPayload :=
  { available := false
    branch := ""
    base_branch := ""
    head_sha := ""
    base_sha := ""
    changed_files_count := 0
    top_changed_paths := []
    change_summary := "Git context disabled."
    warnings := [] }

/-- `collect_git_context` from git_context.py. -/
def collect_git_context (o : GitOracle) (include_branch_context : Bool)
    (base_branch : Option String) : GitPayload :=
  let payload := gitPayloadInit
  if ¬ include_branch_context then
    { payload with change_summary := "Branch context disabled by user." }
  else
    match runGitCall o.is_inside_work_tree with
    | .error _ =>
        { payload with
          warnings := payload.warnings ++
            ["Project is not a git repository; delta slide will be skipped."]
          change_summary := "Git context unavailable (not a repository)." }
    | .ok inside =>
      if inside ≠ "true" then
        { payload with
          warnings := payload.warnings ++ ["Project is not inside a git working tree."]
          change_summary := "Git context unavailable." }
      else
        let payload := { payload with available := true }
        match runGitCall o.branch with
        | .error exc =>
            { payload with
              warnings := payload.warnings ++ ["Failed to read branch metadata: " ++ exc]
              change_summary := "Git metadata partially unavailable." }
        | .ok branch =>
          match runGitCall o.head_sha with
          | .error exc =>
              { payload with
                warnings := payload.warnings ++ ["Failed to read branch metadata: " ++ exc]
                change_summary := "Git metadata partially unavailable." }
          | .ok head_sha =>
            let payload := { payload with branch := branch, head_sha := head_sha }
            match detect_base_branch o base_branch with
            | none =>
                { payload with
                  warnings := payload.warnings ++
                    ["Could not detect base branch (tried main/master)."]
                  change_summary := "Base branch unavailable; showing current branch only." }
            | some detected_base =>
              let payload := { payload with base_branch := detected_base }
              match runGitCall o.merge_base with
              | .error exc =>
                  { payload with
                    warnings := payload.warnings ++
                      ["Failed to compute git diff against " ++ detected_base ++ ": " ++ exc]
                    change_summary := "Branch comparison unavailable due to git command failure." }
              | .ok merge_base =>
                let payload := { payload with base_sha := merge_base }
                match runGitCall o.diff_names with
                | .error exc =>
                    { payload with
                      warnings := payload.warnings ++
                        ["Failed to compute git diff against " ++ detected_base ++ ": " ++ exc]
                      change_summary := "Branch comparison unavailable due to git command failure." }
                | .ok diff_paths =>
                  let changed_paths :=
                    ((pySplitlines diff_paths).map pyStrip).filter (fun line => line ≠ "")
                  let changed_paths := pySorted (fun a b => strLeB a b) changed_paths
                  { payload with
                    changed_files_count := changed_paths.length
                    top_changed_paths := changed_paths.take 10
                    change_summary := summarize_changes changed_paths }

/-! ## document_parser.py -/

/-- Split a string at every occurrence of any of the given characters
    (Python `re.split` with a single-character class). -/
def splitOnCharsAux (seps : List Char) : List Char → List Char → List String
  | [], acc => [String.mk acc.reverse]
  | c :: rest, acc =>
      if c ∈ seps then String.mk acc.reverse :: splitOnCharsAux seps rest []
      else splitOnCharsAux seps rest (c :: acc)

def splitOnChars (seps : List Char) (s : String) : List String :=
  splitOnCharsAux seps s.data []

/-- Python `s.split()` (whitespace runs, no empty parts). -/
def pySplitWs (s : String) : List String :=
  (splitOnChars [' ', '\t', '\n', '\r', '\x0b', '\x0c'] s).filter (fun p => p ≠ "")

def PROBLEM_HEADERS : List String := ["problem", "challenge", "pain point", "motivation", "issue"]
def SOLUTION_HEADERS : List String := ["solution", "approach", "how it works", "architecture"]
def FEATURE_HEADERS : List String := ["features", "capabilities", "functionality", "highlights"]
def IMPACT_HEADERS : List String := ["impact", "benefits", "value", "outcomes"]
def FUTURE_HEADERS : List String := ["future", "roadmap", "next steps", "future work"]
def INSTALL_HEADERS : List String := ["installation", "setup", "getting started"]
def USAGE_HEADERS : List String := ["usage", "examples", "how to use"]

/-- The header regex `^(#{1,3})\s+(.+?)\s*$` of `_split_sections`:
    returns the heading level and the stripped heading text. -/
def matchHeader (line : String) : Option (Nat × String) :=
  let cs := line.data
  let hashes := cs.takeWhile (fun c => c = '#')
  let level := hashes.length
  let rest := cs.drop level
  if 1 ≤ level ∧ level ≤ 3 ∧ 2 ≤ rest.length ∧ (rest.head?.map isPyWS).getD false then
    some (level, pyStrip (String.mk rest))
  else none

/-- The bullet regex `^\s*(?:[-*]|\d+\.)\s+(.+?)\s*$` of
    `_extract_list_items`: returns the stripped item text. -/
def matchBullet (line : String) : Option String :=
  let cs := line.data
  let rest := cs.drop (cs.takeWhile isPyWS).length
  let afterMarker : Option (List Char) :=
    match rest.head? with
    | some c =>
        if c = '-' ∨ c = '*' then some (rest.drop 1)
        else
          let digits := rest.takeWhile (fun d => d.isDigit)
          if digits ≠ [] ∧ (rest.drop digits.length).head? = some '.' then
            some (rest.drop (digits.length + 1))
          else none
    | none => none
  match afterMarker with
  | none => none
  | some body =>
      if 2 ≤ body.length ∧ (body.head?.map isPyWS).getD false then
        some (pyStrip (String.mk body))
      else none

/-- `re.sub(r"\n{3,}", "\n\n", ...)`: collapse runs of three or more
    newlines to two.  `pending` counts buffered newlines. -/
def collapseNlAux : List Char → Nat → List Char
  | [], pending => List.replicate (min pending 2) '\n'
  | c :: rest, pending =>
      if c = '\n' then collapseNlAux rest (pending + 1)
      else List.replicate (min pending 2) '\n' ++ c :: collapseNlAux rest 0

/-- `_cleanup_section` from document_parser.py. -/
def cleanup_section (text : String) : String :=
  String.mk (collapseNlAux (pyStrip text).data 0)

/-- The loop state of `_split_sections`. -/
structure SplitState where
  title : String
  current_header : String
  saw_section : Bool
  intro_lines : List String
  sections : List (String × List String)
deriving Repr

/-- `sections.setdefault(header, [])`. -/
def sectSetdefault (secs : List (String × List String)) (k : String) :
    List (String × List String) :=
  if secs.any (fun p => p.1 = k) then secs else secs ++ [(k, [])]

/-- `sections[current_header].append(line)`. -/
def sectAppend (secs : List (String × List String)) (k : String) (line : String) :
    List (String × List String) :=
  secs.map (fun p => if p.1 = k then (p.1, p.2 ++ [line]) else p)

/-- The per-line body of `_split_sections`. -/
def splitStep (st : SplitState) (line : String) : SplitState :=
  match matchHeader line with
  | some (level, header) =>
      if level = 1 ∧ st.title = "" then
        { st with title := header, current_header := "" }
      else
        { st with
          saw_section := true
          current_header := header
          sections := sectSetdefault st.sections header }
  | none =>
      if st.current_header ≠ "" then
        { st with sections := sectAppend st.sections st.current_header line }
      else if ¬ st.saw_section then
        { st with intro_lines := st.intro_lines ++ [line] }
      else st

/-- `_split_sections` from document_parser.py. -/
def split_sections (content : String) : String × List (String × String) × String :=
  let st := (pySplitlines content).foldl splitStep
    { title := "", current_header := "", saw_section := false, intro_lines := [], sections := [] }
  let finalized := st.sections.filterMap (fun p =>
    let cleaned := cleanup_section (String.intercalate "\n" p.2)
    if cleaned ≠ "" then some (p.1, cleaned) else none)
  let intro := cleanup_section (String.intercalate "\n" st.intro_lines)
  (st.title, finalized, intro)

/-- The dedup-with-limit loop at the end of `_extract_list_items`. -/
def uniqueLowerLimit : List String → List String → Nat → List String
  | [], acc, _ => acc
  | item :: rest, acc, limit =>
      if pyLower item ∈ acc.map pyLower then uniqueLowerLimit rest acc limit
      else
        let acc := acc ++ [item]
        if limit ≤ acc.length then acc else uniqueLowerLimit rest acc limit

/-- `_extract_list_items` from document_parser.py. -/
def extract_list_items (text : String) (limit : Nat) : List String :=
  let items := (pySplitlines text).filterMap matchBullet
  let items :=
    if items = [] then
      (((splitOnChars ['\n', '.'] text).map pyStrip).filter (fun seg => seg ≠ "")).take limit
    else items
  uniqueLowerLimit items [] limit

/-- The section-dispatch body of `_parse_markdown_file` applied to
    already-read file contents. -/
def applyMarkdownContent (content : String) (is_readme : Bool) (doc : DocData) : DocData :=
  let parts := split_sections content
  let title := parts.1
  let sections := parts.2.1
  let intro := parts.2.2
  let doc := if is_readme ∧ title ≠ "" then { doc with title := title } else doc
  let doc :=
    if intro ≠ "" ∧ doc.description = "" then { doc with description := pySlice intro 500 }
    else doc
  sections.foldl (fun doc p =>
    let key := pyStrip (pyLower p.1)
    let normalized := String.mk (key.data.filter (fun c =>
      ('a' ≤ c ∧ c ≤ 'z') ∨ ('0' ≤ c ∧ c ≤ '9') ∨ c = ' '))
    let section_text := p.2
    if normalized ∈ PROBLEM_HEADERS ∧ doc.problem = "" then
      { doc with problem := pySlice section_text 700 }
    else if normalized ∈ SOLUTION_HEADERS ∧ doc.solution = "" then
      { doc with solution := pySlice section_text 700 }
    else if normalized ∈ FEATURE_HEADERS ∧ doc.features = [] then
      { doc with features := extract_list_items section_text 10 }
    else if normalized ∈ IMPACT_HEADERS ∧ doc.impact_points = [] then
      { doc with impact_points := extract_list_items section_text 8 }
    else if normalized ∈ FUTURE_HEADERS ∧ doc.future_items = [] then
      { doc with future_items := extract_list_items section_text 8 }
    else if normalized ∈ INSTALL_HEADERS ∧ doc.installation = "" then
      { doc with installation := pySlice section_text 400 }
    else if normalized ∈ USAGE_HEADERS ∧ doc.usage = "" then
      { doc with usage := pySlice section_text 400 }
    else doc) doc

/-- `_parse_markdown_file` from document_parser.py; `readResult` is the
    outcome of `path.read_text` (`.error` is a raised `OSError`). -/
def parse_markdown_file (readResult : Except String String) (pathDisplay : String)
    (is_readme : Bool) (doc : DocData) (warnings : List String) : DocData × List String :=
  match readResult with
  | .error exc => (doc, warnings ++ ["Failed to read " ++ pathDisplay ++ ": " ++ exc])
  | .ok content => (applyMarkdownContent content is_readme doc, warnings)

/-- An additional-doc path after OS resolution: `raw` is the argument
    string, `resolved` the resolved path rendered for messages, `is_file`
    the `path.exists() and path.is_file()` outcome, `within` the
    `_is_within_project` outcome (`path.relative_to(project)` succeeding),
    `suffix` the `path.suffix`, and `readResult` the `read_text` outcome. -/
structure AddDoc where
  raw : String
  resolved : String
  is_file : Bool
  within : Bool
  suffix : String
  readResult : Except String String
deriving Repr

/-- `_parse_additional_doc` from document_parser.py. -/
def parse_additional_doc (d : AddDoc) (doc : DocData) (warnings : List String) :
    DocData × List String :=
  if ¬ d.is_file then
    (doc, warnings ++ ["Additional doc not found: " ++ d.raw])
  else if ¬ d.within then
    (doc, warnings ++ ["Skipped doc outside project directory: " ++ d.resolved])
  else if pyLower d.suffix ∈ [".md", ".markdown", ".txt", ".rst"] then
    parse_markdown_file d.readResult d.resolved false doc warnings
  else
    match d.readResult with
    | .error exc =>
        (doc, warnings ++ ["Failed to read additional doc " ++ d.resolved ++ ": " ++ exc])
    | .ok content =>
        let snippet := pySlice content 300
        if snippet ≠ "" ∧ doc.description.length < 700 then
          let joined := pyStrip (pyStrip doc.description ++ "\n\n" ++ snippet)
          ({ doc with description := pySlice joined 700 }, warnings)
        else (doc, warnings)

/-- `DocumentParser.parse`: `readme` is the located README's read outcome
    (`none` when `_find_readme` found nothing). -/
def documentParserParse (project_name : String) (readme : Option (Except String String))
    (additional_docs : List AddDoc) : DocData × List String :=
  let doc : DocData :=
    { title := project_name, description := "", problem := "", solution := ""
      features := [], impact_points := [], future_items := [], installation := "", usage := "" }
  let start :=
    match readme with
    | some r => parse_markdown_file r "README" true doc []
    | none => (doc, ["README file not found; using fallback metadata."])
  additional_docs.foldl (fun acc d => parse_additional_doc d acc.1 acc.2) start

/-! ## analyzer.py -/

/-- The observable content of a file on disk: `size` is the raw byte
    length, `hasNul` whether the bytes contain `\x00`, `text` the
    `utf-8, errors="ignore"` decoding, `readable` whether opening raises. -/
structure FileData where
  readable : Bool := true
  size : Nat := 0
  hasNul : Bool := false
  text : String := ""
deriving DecidableEq, Repr, Inhabited

/-- A directory tree as the analyzer sees it. -/
inductive FsTree where
  | file (name : String) (symlink : Bool) (data : FileData)
  | dir (name : String) (symlink : Bool) (entries : List FsTree)
deriving Repr, Inhabited

def FsTree.name : FsTree → String
  | .file n _ _ => n
  | .dir n _ _ => n

def FsTree.isSym : FsTree → Bool
  | .file _ s _ => s
  | .dir _ s _ => s

def FsTree.isDir : FsTree → Bool
  | .file _ _ _ => false
  | .dir _ _ _ => true

def FsTree.fdata : FsTree → FileData
  | .file _ _ d => d
  | .dir _ _ _ => default

/-- The order in which `directory.iterdir()` yields entries is chosen by
    the operating system; a `Shuffle` models that choice (per directory
    path), constrained to be a permutation of the directory's entries. -/
def Shuffle := List String → (l : List FsTree) → { l' : List FsTree // l'.Perm l }

def identityShuffle : Shuffle := fun _ l => ⟨l, List.Perm.refl l⟩

/-- The sort key of `_iter_files`: `sorted(entries, key=lambda p: p.name.lower())`. -/
def entryLe (a b : FsTree) : Bool := strLeB (pyLower a.name) (pyLower b.name)

def IGNORE_DIRS : List String :=
  [".git", ".hg", ".svn", "node_modules", "vendor", "dist", "build", "target", "bin",
   "obj", "venv", ".venv", "env", "__pycache__", ".pytest_cache", ".mypy_cache",
   ".ruff_cache", ".tox", "coverage", ".idea", ".vscode"]

/-- `CodebaseAnalyzer._should_ignore_dir`. -/
def should_ignore_dir (name : String) : Bool :=
  let lowered := pyLower name
  lowered ∈ IGNORE_DIRS ∨ strStartsWith lowered ".venv" ∨ strStartsWith lowered "venv"

/-- `CodebaseAnalyzer._iter_files` (the explicit-stack walk yields the
    files of each directory in sorted order, then descends into its
    non-ignored subdirectories in sorted order; symlinks are skipped).
    Yields each file's path components relative to the root with its data. -/
def iterFilesFuel (sh : Shuffle) : Nat → List String → FsTree → List (List String × FileData)
  | _, _, .file _ _ _ => []
  | 0, _, .dir _ _ _ => []
  | f + 1, rel, .dir _ _ es =>
      let entries := (pySorted entryLe (sh rel es).val).filter (fun e => ¬ e.isSym)
      let files := entries.filter (fun e => ¬ e.isDir)
      let dirs := entries.filter (fun e => e.isDir ∧ ¬ should_ignore_dir e.name)
      files.map (fun e => (rel ++ [e.name], e.fdata)) ++
        dirs.bind (fun d => iterFilesFuel sh f (rel ++ [d.name]) d)

mutual
/-- Executable node count of a tree. -/
def FsTree.size : FsTree → Nat
  | .file _ _ _ => 1
  | .dir _ _ es => 1 + FsTree.sizeList es

def FsTree.sizeList : List FsTree → Nat
  | [] => 0
  | t :: ts => FsTree.size t + FsTree.sizeList ts
end

/-- Fuel `t.size` strictly dominates the recursion depth, so this is the
    total walk. -/
def iterFiles (sh : Shuffle) (rel : List String) (t : FsTree) :
    List (List String × FileData) :=
  iterFilesFuel sh t.size rel t

/-- CPython `PurePath.suffix`: the final `.ext` when the dot sits strictly
    inside the name. -/
def pySuffix (name : String) : String :=
  let cs := name.data
  match ((cs.enum.filter (fun p => p.2 = '.')).map (fun p => p.1)).getLast? with
  | none => ""
  | some i => if 0 < i ∧ i + 1 < cs.length then String.mk (cs.drop i) else ""

def CODE_LANGUAGE_EXTENSIONS : List (String × String) :=
  [(".py", "Python"), (".js", "JavaScript"), (".ts", "TypeScript"), (".jsx", "React"),
   (".tsx", "React/TypeScript"), (".java", "Java"), (".go", "Go"), (".rs", "Rust"),
   (".rb", "Ruby"), (".php", "PHP"), (".cs", "C#"), (".cpp", "C++"), (".c", "C"),
   (".h", "C/C++"), (".hpp", "C++"), (".swift", "Swift"), (".kt", "Kotlin"),
   (".scala", "Scala"), (".lua", "Lua"), (".dart", "Dart"), (".sh", "Shell"),
   (".bash", "Bash"), (".ps1", "PowerShell"), (".sql", "SQL"), (".html", "HTML"),
   (".css", "CSS"), (".scss", "SCSS"), (".vue", "Vue")]

def DOC_EXTENSIONS : List String := [".md", ".rst", ".txt"]

def CONFIG_EXTENSIONS : List String :=
  [".json", ".yaml", ".yml", ".toml", ".ini", ".cfg", ".conf", ".env", ".properties"]

def BINARY_EXTENSIONS : List String :=
  [".png", ".jpg", ".jpeg", ".gif", ".ico", ".svg", ".pdf", ".zip", ".tar", ".gz",
   ".7z", ".mp3", ".mp4", ".mov", ".avi", ".exe", ".dll", ".so", ".dylib", ".class",
   ".jar", ".pyc"]

def KEY_FILE_NAMES : List String :=
  ["main.py", "app.py", "server.py", "index.js", "main.js", "app.js", "main.ts",
   "index.ts", "main.go", "main.rs", "main.java"]

def FEATURE_PATTERNS : List (String × List String) :=
  [("Authentication", ["auth", "login", "signup", "oauth", "jwt"]),
   ("Database", ["database", "postgres", "mysql", "mongo", "sqlite", "redis"]),
   ("API", ["api", "rest", "graphql", "fastapi", "express", "flask"]),
   ("AI", ["llm", "transformer", "embedding", "prompt", "inference"]),
   ("Realtime", ["websocket", "socket.io", "realtime"]),
   ("Payments", ["stripe", "paypal", "billing", "checkout"])]

def FRAMEWORK_HINTS : List (String × String) :=
  [("react", "React"), ("next", "Next.js"), ("nextjs", "Next.js"), ("vue", "Vue"),
   ("angular", "Angular"), ("express", "Express"), ("nestjs", "NestJS"),
   ("flask", "Flask"), ("django", "Django"), ("fastapi", "FastAPI"),
   ("spring", "Spring"), ("gin", "Gin"), ("actix", "Actix"), ("rocket", "Rocket")]

/-- The counter state mutated by `_analyze_file`. -/
structure AnState where
  languages : List (String × Nat) := []
  file_count : Nat := 0
  total_lines : Nat := 0
  key_files : List String := []
  docs_count : Nat := 0
  config_count : Nat := 0
  warnings : List String := []
deriving DecidableEq, Repr

/-- `Counter[language] += 1` with dict insertion order. -/
def counterInc (m : List (String × Nat)) (k : String) : List (String × Nat) :=
  if m.any (fun p => p.1 = k) then m.map (fun p => if p.1 = k then (p.1, p.2 + 1) else p)
  else m ++ [(k, 1)]

/-- `CodebaseAnalyzer._safe_read_text`: the decoded text, or `none` plus
    any warning produced. -/
def safe_read_text (max_bytes : Nat) (display : String) (fd : FileData) :
    Option String × List String :=
  if ¬ fd.readable then (none, ["Could not read file: " ++ display])
  else if max_bytes < fd.size then (none, ["Skipped large file: " ++ display])
  else if fd.hasNul then (none, [])
  else (some fd.text, [])

/-- `CodebaseAnalyzer._analyze_file` as a fold step over the walked files. -/
def analyze_file_step (max_bytes : Nat) (projectDisplay : String) (st : AnState)
    (entry : List String × FileData) : AnState :=
  let path := entry.1
  let fd := entry.2
  let name := (path.getLast?).getD ""
  let ext := pyLower (pySuffix name)
  if ext ∈ BINARY_EXTENSIONS then st
  else
    let display := projectDisplay ++ "/" ++ String.intercalate "/" path
    match safe_read_text max_bytes display fd with
    | (none, ws) => { st with warnings := st.warnings ++ ws }
    | (some text, _) =>
        let line_count := (pySplitlines text).length
        match (CODE_LANGUAGE_EXTENSIONS.find? (fun p => p.1 = ext)).map (fun p => p.2) with
        | some language =>
            { st with
              languages := counterInc st.languages language
              file_count := st.file_count + 1
              total_lines := st.total_lines + line_count
              key_files :=
                if name ∈ KEY_FILE_NAMES then st.key_files ++ [String.intercalate "/" path]
                else st.key_files }
        | none =>
            if ext ∈ DOC_EXTENSIONS then { st with docs_count := st.docs_count + 1 }
            else if ext ∈ CONFIG_EXTENSIONS then { st with config_count := st.config_count + 1 }
            else st

/-- Text of a file entry directly under the project root (`self.project_path / filename`). -/
def findRootFileText (t : FsTree) (fname : String) : Option String :=
  match t with
  | .dir _ _ es =>
      match es.find? (fun e => e.name = fname) with
      | some (.file _ _ d) => some d.text
      | _ => none
  | .file _ _ _ => none

/-- Lookup of a relative path inside the tree. -/
def findByPath : List String → FsTree → Option FsTree
  | [], t => some t
  | c :: rest, t =>
      match t with
      | .dir _ _ es =>
          match es.find? (fun e => e.name = c) with
          | some e => findByPath rest e
          | none => none
      | .file _ _ _ => none

/-- `CodebaseAnalyzer._parse_requirements`. -/
def parse_requirements (text : String) : List String :=
  (pySplitlines text).filterMap (fun line =>
    let cleaned := pyStrip line
    if cleaned = "" ∨ strStartsWith cleaned "#" then none
    else
      let name := String.mk (cleaned.data.takeWhile
        (fun c => ¬ (c = '<' ∨ c = '>' ∨ c = '=' ∨ c = '~' ∨ c = '!' ∨ c = ' ')))
      if name ≠ "" then some name else none)

/-- `CodebaseAnalyzer._parse_go_mod`. -/
def parse_go_mod (text : String) : List String :=
  ((pySplitlines text).foldl (fun acc line =>
    let deps := acc.1
    let in_require_block := acc.2
    let stripped := pyStrip line
    if strStartsWith stripped "require (" then (deps, true)
    else if in_require_block ∧ stripped = ")" then (deps, false)
    else if strStartsWith stripped "require " then
      let parts := pySplitWs stripped
      if 2 ≤ parts.length then (deps ++ [parts.getD 1 ""], in_require_block)
      else (deps, in_require_block)
    else if in_require_block ∧ stripped ≠ "" then
      match pySplitWs stripped with
      | [] => (deps, in_require_block)
      | p :: _ => (deps ++ [p], in_require_block)
    else (deps, in_require_block)) (([] : List String), false)).1

/-- `CodebaseAnalyzer._parse_cargo_toml`. -/
def parse_cargo_toml (text : String) : List String :=
  ((pySplitlines text).foldl (fun acc line =>
    let deps := acc.1
    let in_deps := acc.2
    let stripped := pyStrip line
    if strStartsWith stripped "[dependencies" then (deps, true)
    else if in_deps ∧ strStartsWith stripped "[" then (deps, false)
    else if in_deps ∧ strContainsSub stripped "=" then
      let name := pyStrip (((strSplitOn stripped "=").head?).getD "")
      if name ≠ "" then (deps ++ [name], in_deps) else (deps, in_deps)
    else (deps, in_deps)) (([] : List String), false)).1

/-- Oracles for the two manifest formats parsed through external
    libraries (`json.loads` for package.json, `tomllib` for
    pyproject.toml): each maps the file text to the dependency-name list
    the corresponding `_parse_*` method extracts. -/
structure DepOracles where
  parse_package_json_deps : String → List String
  parse_pyproject_deps : String → List String

/-- `CodebaseAnalyzer._detect_dependencies`. -/
def detect_dependencies (oracles : DepOracles) (t : FsTree) : List String :=
  let fromFile : String → (String → List String) → List String := fun fname parser =>
    match findRootFileText t fname with
    | some txt => parser txt
    | none => []
  let deps :=
    fromFile "package.json" oracles.parse_package_json_deps ++
    fromFile "requirements.txt" parse_requirements ++
    fromFile "pyproject.toml" oracles.parse_pyproject_deps ++
    fromFile "go.mod" parse_go_mod ++
    fromFile "Cargo.toml" parse_cargo_toml
  let ordered := deps.foldl (fun acc dep =>
    if pyLower dep ∈ acc.map pyLower then acc else acc ++ [dep]) []
  ordered.take 25

/-- `CodebaseAnalyzer._detect_frameworks`. -/
def detect_frameworks (dependencies : List String) : List String :=
  let dep_text := pyLower (String.intercalate " " dependencies)
  (pySorted (fun a b => strLeB a.2 b.2) FRAMEWORK_HINTS).foldl
    (fun detected p =>
      if strContainsSub dep_text p.1 ∧ p.2 ∉ detected then detected ++ [p.2]
      else detected) []

/-- `CodebaseAnalyzer._detect_features` (returns the features plus any
    read warnings it appends to `self.warnings`). -/
def detect_features (max_bytes : Nat) (projectDisplay : String) (t : FsTree)
    (key_files : List String) : List String × List String :=
  let corpus0 : List String :=
    match findRootFileText t "README.md" with
    | some txt => [pyLower txt]
    | none => []
  let step := fun (acc : List String × List String) (rel : String) =>
    match findByPath (strSplitOn rel "/") t with
    | some (.file _ _ fd) =>
        (match safe_read_text max_bytes (projectDisplay ++ "/" ++ rel) fd with
         | (some text, ws) => (acc.1 ++ [pyLower text], acc.2 ++ ws)
         | (none, ws) => (acc.1, acc.2 ++ ws))
    | _ => acc
  let pair := (key_files.take 5).foldl step (corpus0, [])
  let content := String.intercalate "\n" pair.1
  ((FEATURE_PATTERNS.filter (fun p =>
      p.2.any (fun pat => strContainsSub content pat))).map (fun p => p.1),
   pair.2)

/-- `max(self.languages.items(), key=lambda item: item[1])[0]`: Python's
    `max` returns the first maximal item in iteration order. -/
def pyMaxByCount (l : List (String × Nat)) : Option String :=
  ((l.foldl (fun best p =>
      match best with
      | none => some p
      | some b => if b.2 < p.2 then some p else best) none)).map (fun p => p.1)

/-- `CodebaseAnalyzer.analyze` (on an existing project directory). -/
def analyzerAnalyze (oracles : DepOracles) (sh : Shuffle) (projectDisplay : String)
    (max_bytes : Nat) (t : FsTree) : Analysis :=
  let walk := iterFiles sh [] t
  let st := walk.foldl (analyze_file_step max_bytes projectDisplay) {}
  let dependencies := detect_dependencies oracles t
  let frameworks := detect_frameworks dependencies
  let featPair := detect_features max_bytes projectDisplay t st.key_files
  { project_name := t.name
    languages := pySorted
      (fun a b => decide (b.2 < a.2) || (decide (a.2 = b.2) && strLeB a.1 b.1)) st.languages
    primary_language := (pyMaxByCount st.languages).getD "Unknown"
    file_count := st.file_count
    total_lines := st.total_lines
    key_files := pySorted (fun a b => strLeB a b) st.key_files
    dependencies := dependencies
    frameworks := frameworks
    features := featPair.1
    docs_count := st.docs_count
    config_count := st.config_count
    warnings := st.warnings ++ featPair.2 }

/-! ## pipeline.py -/

/-- The `metadata` dict assembled by `run_generation`. -/
structure Metadata where
  project : String
  languages : List (String × Nat)
  dependencies : List String
  frameworks : List String
  file_count : Nat
  total_lines : Nat
  docs_count : Nat
  config_count : Nat
deriving DecidableEq, Repr

/-- The `git_context` sub-dict of the payload. -/
structure GitContextOut where
  branch : String
  base_branch : String
  head_sha : String
  base_sha : String
  changed_files_count : Nat
  top_changed_paths : List String
  change_summary : String
deriving DecidableEq, Repr

/-- The schema-versioned JSON payload of `run_generation`. -/
structure Payload where
  schema_version : String
  metadata : Metadata
  git_context : GitContextOut
  slides : List Slide
  evidence : List Evidence
  media_catalog : List Media
  quality_report : QReport
deriving DecidableEq, Repr

/-- What `run_generation` returns (the HTML/Markdown renderer strings are
    pure templating over the payload and are out of scope here). -/
structure RunResult where
  payload : Payload
  warnings : List String
deriving DecidableEq, Repr

/-- The tail of `run_generation` after the AI pass: optional visual
    attachment, the final quality gate, and payload assembly. -/
def runGenFinish (config : Config) (code_analysis : Analysis) (git_context : GitPayload)
    (doc_data : DocData) (image_mode : String) (media_catalog : List Media)
    (evidence : List Evidence) (score : Slide → Media → Frac) (slides : List Slide) :
    Except HLError Payload :=
  let slides :=
    if image_mode ≠ "off" then
      (attach_visuals_to_slides score slides media_catalog image_mode
        config.images.max_images_per_slide config.images.min_confidence).1
    else slides
  let quality_report := evaluate_quality slides image_mode config.images.min_confidence
  match enforce_quality quality_report
      (config.general.strict_quality ∨ image_mode = "strict") with
  | .error e => .error e
  | .ok _ =>
    let metadata : Metadata :=
      { project := pyOr doc_data.title code_analysis.project_name
        languages := code_analysis.languages
        dependencies := code_analysis.dependencies
        frameworks := code_analysis.frameworks
        file_count := code_analysis.file_count
        total_lines := code_analysis.total_lines
        docs_count := code_analysis.docs_count
        config_count := code_analysis.config_count }
    .ok
      { schema_version := "2.2"
        metadata := metadata
        git_context :=
          { branch := git_context.branch
            base_branch := git_context.base_branch
            head_sha := git_context.head_sha
            base_sha := git_context.base_sha
            changed_files_count := git_context.changed_files_count
            top_changed_paths := git_context.top_changed_paths
            change_summary := git_context.change_summary }
        slides := slides
        evidence := evidence
        media_catalog := media_catalog
        quality_report := quality_report }

/-- The image mode actually in effect (`"off"` when images are disabled). -/
def effImageMode (config : Config) : String :=
  if ¬ config.images.enabled then "off" else pyLower config.images.mode

/-- The media catalog used by the run (`index_project_images` is only
    invoked when the image mode is on). -/
def effMediaCatalog (config : Config) (mediaIndexed : List Media) : List Media :=
  if effImageMode config ≠ "off" then mediaIndexed else []

def effImageWarnings (config : Config) (raw : List String) : List String :=
  if effImageMode config ≠ "off" then raw else []

/-- `max_slides if max_slides is not None else config["general"]["max_slides"]`. -/
def resolvedMaxSlides (config : Config) (max_slides : Option Int) : Option Int :=
  match max_slides with
  | some v => some v
  | none => config.general.max_slides

/-- The deterministic slide set of the run. -/
def runDeterministicSlides (config : Config) (code_analysis : Analysis)
    (doc_data : DocData) (git_context : GitPayload) (evidence : List Evidence)
    (requested_slide_types : Option (List String)) (max_slides : Option Int) : List Slide :=
  build_deterministic_slides code_analysis doc_data git_context
    (evidenceIds evidence)
    (resolve_slide_types requested_slide_types (resolvedMaxSlides config max_slides)
      (git_context.available ∧ git_context.base_branch ≠ ""))

/-- The body of `run_generation` from the point where the resolved
    config, code analysis, parsed docs, git context and indexed media are
    in hand (those stages' I/O outcomes are the parameters; everything
    below them is embedded source logic).  `mediaIndexed` is what
    `index_project_images` would return along with its warnings. -/
def run_generation_core (config : Config) (code_analysis : Analysis)
    (doc_data : DocData) (doc_warnings : List String) (git_context : GitPayload)
    (mediaIndexed : List Media) (image_index_warnings_raw : List String)
    (sha1hex : String → String) (read_key_file : String → Option String)
    (readme_rel : String) (readme_text : String)
    (model_path : Option String) (genResult : Except AiFailure MergePayload)
    (score : Slide → Media → Frac)
    (requested_slide_types : Option (List String)) (max_slides : Option Int) :
    Except HLError RunResult :=
  let image_mode := effImageMode config
  let media_catalog := effMediaCatalog config mediaIndexed
  let image_index_warnings := effImageWarnings config image_index_warnings_raw
  let evidence := build_evidence sha1hex code_analysis doc_data git_context
    readme_rel readme_text read_key_file media_catalog
  let deterministic := runDeterministicSlides config code_analysis doc_data git_context
    evidence requested_slide_types max_slides
  match enhance_slides_with_ai deterministic config model_path genResult with
  | .error e => .error e
  | .ok (slides, _report) =>
    match runGenFinish config code_analysis git_context doc_data image_mode media_catalog
        evidence score slides with
    | .error e => .error e
    | .ok payload =>
      .ok { payload := payload
            warnings := code_analysis.warnings ++ doc_warnings ++
              git_context.warnings ++ image_index_warnings }

/-- `run_generation` with the codebase analysis performed on an explicit
    tree through the embedded `CodebaseAnalyzer.analyze`. -/
def run_generation_from_tree (config : Config) (dep_oracles : DepOracles) (sh : Shuffle)
    (projectDisplay : String) (max_bytes : Nat) (tree : FsTree)
    (doc_data : DocData) (doc_warnings : List String) (git_context : GitPayload)
    (mediaIndexed : List Media) (image_index_warnings_raw : List String)
    (sha1hex : String → String) (read_key_file : String → Option String)
    (readme_rel : String) (readme_text : String)
    (model_path : Option String) (genResult : Except AiFailure MergePayload)
    (score : Slide → Media → Frac)
    (requested_slide_types : Option (List String)) (max_slides : Option Int) :
    Except HLError RunResult :=
  run_generation_core config
    (analyzerAnalyze dep_oracles sh projectDisplay max_bytes tree)
    doc_data doc_warnings git_context mediaIndexed image_index_warnings_raw
    sha1hex read_key_file readme_rel readme_text model_path genResult score
    requested_slide_types max_slides

/-! ## studio_session.py -/

def SESSION_SCHEMA_VERSION : String := "1.0"

structure Presenter where
  timer_minutes : Int
  last_slide_index : Int
deriving DecidableEq, Repr

/-- A draft override stored per slide id in the session. -/
structure SlideOverride where
  title : Option String := none
  subtitle : Option String := none
  content : Option String := none
  list_items : Option (List String) := none
  claims : Option (List Claim) := none
  evidence_refs : Option (List String) := none
  notes : Option String := none
  visuals : Option (List Visual) := none
deriving DecidableEq, Repr

/-- The metric-less report that `default_session` stores as `{}`. -/
def emptyQReport : QReport :=
  { status := "", errors := [], warnings := []
    metrics := { image_coverage := 0, slides_without_visual := [], visual_confidence_mean := 0 } }

/-- The session dict (typed to the shapes the server writes into it). -/
structure Session where
  studio_schema_version : String
  selected_slides : List String
  slide_order : List String
  draft_overrides : List (String × SlideOverride)
  note_blocks : List (String × String)
  pinned_evidence : List (String × List String)
  presenter : Presenter
  last_validation : QReport
deriving DecidableEq, Repr

/-- `default_session` from studio_session.py. -/
def default_session : Session :=
  { studio_schema_version := SESSION_SCHEMA_VERSION
    selected_slides := []
    slide_order := []
    draft_overrides := []
    note_blocks := []
    pinned_evidence := []
    presenter := { timer_minutes := 7, last_slide_index := 0 }
    last_validation := emptyQReport }

/-- The merged content that module-level `save_session` writes to
    `session.json` (the timestamped snapshot copies it makes of the prior
    file are backup artifacts, not session state). -/
def sessionFileContent (session : Session) : Session :=
  { session with studio_schema_version := SESSION_SCHEMA_VERSION }

/-! ## studio_server.py -/

/-- Path components of an absolute path (after "/"-splitting). -/
def splitPathComponents (s : String) : List String :=
  (strSplitOn s "/").filter (fun c => c ≠ "")

def isAbsPath (s : String) : Bool := strStartsWith s "/"

/-- One step of POSIX `resolve()` normalisation. -/
def resolveStep (acc : List String) (c : String) : List String :=
  if c = "." then acc
  else if c = ".." then acc.dropLast
  else acc ++ [c]

def isPathPrefixOf (a b : List String) : Bool := decide (b.take a.length = a)

def renderAbsPath (comps : List String) : String :=
  "/" ++ String.intercalate "/" comps

/-- `_safe_project_path` from studio_server.py: resolve the candidate
    against the project root and require `path.relative_to(root)` to
    succeed. -/
def safe_project_path (root : List String) (candidate : String) :
    Except HLError (List String) :=
  let start := if isAbsPath candidate then [] else root
  let path := (splitPathComponents candidate).foldl resolveStep start
  if isPathPrefixOf root path then .ok path
  else .error
    { code := .INVALID_INPUT
      message := "Output path must stay within the project directory."
      hint := some (renderAbsPath path) }

/-- `Path.with_suffix` on resolved components. -/
def pyWithSuffix (comps : List String) (suffix : String) : List String :=
  match comps.getLast? with
  | none => comps
  | some name =>
      let old := pySuffix name
      let stem :=
        if old ≠ "" then String.mk (name.data.take (name.length - old.length)) else name
      comps.dropLast ++ [stem ++ suffix]

/-- `Path.suffix` of the last component. -/
def pathSuffix (comps : List String) : String :=
  ((comps.getLast?).map pySuffix).getD ""

/-- `source_path = str(safe_path.relative_to(project_root.resolve()))`
    after a successful `_safe_project_path`. -/
def resolveSafeRel (root : List String) (sp : String) : Option String :=
  match safe_project_path root sp with
  | .ok p => some (String.intercalate "/" (p.drop root.length))
  | .error _ => none

/-- A raw visual entry posted to the server (typed view of the dict). -/
structure VisualPatch where
  id : String := ""
  source_path : String := ""
  alt : String := ""
  caption : String := ""
  evidence_refs : List String := []
  confidence : Option Frac := none
  width : Option Nat := none
  height : Option Nat := none
  sha256 : String := ""
deriving DecidableEq, Repr

/-- `_sanitize_claims` from studio_server.py (a present non-list value
    behaves like an empty list: both produce `[]`). -/
def sanitize_claims (value : Option (List MergeClaim)) (fallback_refs : List String) :
    List Claim :=
  match value with
  | none => []
  | some items =>
      (items.take 12).filterMap (fun item =>
        let text := pyStrip item.text
        if text = "" then none
        else some
          { text := pySlice text 600
            evidence_refs :=
              (((item.evidence_refs.getD fallback_refs).map pyStrip).filter
                (fun r => r ≠ "")).take 12
            confidence := item.confidence.getD (fq 8 10) })

/-- `_sanitize_visuals` from studio_server.py (an unparsable `confidence`
    is the `none` case of the field, yielding `0.0`). -/
def sanitize_visuals (root : List String) (value : Option (List VisualPatch)) :
    List Visual :=
  match value with
  | none => []
  | some items =>
      (items.take 2).filterMap (fun item =>
        let source_path := pyStrip item.source_path
        if source_path = "" then none
        else if strStartsWith source_path "http://" ∨ strStartsWith source_path "https://" then none
        else
          match resolveSafeRel root source_path with
          | none => none
          | some relPath =>
            some
              { id := pySlice item.id 128
                type := "image"
                source_path := relPath
                alt := pySlice (pyStrip item.alt) 240
                caption := pySlice (pyStrip item.caption) 240
                evidence_refs := ((item.evidence_refs.map pyStrip).filter
                  (fun r => r ≠ "")).take 8
                confidence := item.confidence.getD 0
                width := item.width
                height := item.height
                sha256 := pySlice item.sha256 128 })

/-- A slide patch posted to `POST /api/slides` (typed view; `some` means
    the key is present). -/
structure SlidePatch where
  id : Option String := none
  title : Option String := none
  subtitle : Option String := none
  content : Option String := none
  list_items : Option (List String) := none
  claims : Option (List MergeClaim) := none
  evidence_refs : Option (List String) := none
  notes : Option String := none
  visuals : Option (List VisualPatch) := none
deriving DecidableEq, Repr

/-- The key loop of `StudioState.update_slides` applied to one slide,
    in the source's key order (`claims` is sanitized against the slide's
    evidence refs *before* any `evidence_refs` update lands). -/
def applySlidePatch (root : List String) (current : Slide) (patch : SlidePatch) : Slide :=
  let current := match patch.title with
    | some v => { current with title := pySlice v 5000 }
    | none => current
  let current := match patch.subtitle with
    | some v => { current with subtitle := some (pySlice v 5000) }
    | none => current
  let current := match patch.content with
    | some v => { current with content := some (pySlice v 5000) }
    | none => current
  let current := match patch.list_items with
    | some l =>
        { current with list_items := some (((l.map pyStrip).filter (fun i => i ≠ "")).take 10) }
    | none => current
  let current := match patch.claims with
    | some _ => { current with claims := some (sanitize_claims patch.claims current.refsD) }
    | none => current
  let current := match patch.evidence_refs with
    | some l =>
        { current with evidence_refs := some (((l.map pyStrip).filter (fun i => i ≠ "")).take 12) }
    | none => current
  let current := match patch.notes with
    | some v => { current with notes := some (pySlice v 800) }
    | none => current
  match patch.visuals with
  | some _ => { current with visuals := some (sanitize_visuals root patch.visuals) }
  | none => current

/-- The in-memory Studio state mutated by the API handlers
    (`context.slides`, `self.session`, the payload's quality report, the
    immutable media catalog and the persisted `session.json` content). -/
structure StudioStateM where
  slides : List Slide
  media : List Media
  session : Session
  quality : QReport
  sessionFile : Option Session
deriving DecidableEq, Repr

/-- `StudioState._refresh_quality`. -/
def refresh_quality (image_mode : String) (min_conf : Frac) (st : StudioStateM) : StudioStateM :=
  let report := evaluate_quality st.slides image_mode min_conf
  { st with quality := report, session := { st.session with last_validation := report } }

/-- `{key: slide.get(key) for key in [...] if key in slide}`. -/
def overrideOfSlide (s : Slide) : SlideOverride :=
  { title := some s.title
    subtitle := s.subtitle
    content := s.content
    list_items := s.list_items
    claims := s.claims
    evidence_refs := s.evidence_refs
    notes := s.notes
    visuals := s.visuals }

/-- `StudioState._sync_session_from_slides`. -/
def sync_session_from_slides (st : StudioStateM) : StudioStateM :=
  { st with session :=
    { st.session with
      slide_order := st.slides.map (fun s => s.id)
      draft_overrides := st.slides.map (fun s => (s.id, overrideOfSlide s))
      note_blocks := st.slides.filterMap (fun s =>
        match s.notes with
        | some n => if n ≠ "" then some (s.id, n) else none
        | none => none) } }

/-- The `{slide["id"]: slide for slide in self.context.slides}` dict. -/
def slideDictOf (slides : List Slide) : List (String × Slide) :=
  slides.foldl (fun m s => dictInsert m s.id s) []

/-- One iteration of the `for payload_slide in incoming_slides` loop of
    `StudioState.update_slides`. -/
def patchStep (root : List String) (m : List (String × Slide)) (patch : SlidePatch) :
    List (String × Slide) :=
  match patch.id with
  | none => m
  | some sid =>
      match dictGet m sid with
      | none => m
      | some current => dictInsert m sid (applySlidePatch root current patch)

/-- The slide-list transformation performed by `StudioState.update_slides`
    (patch each addressed slide, keep the original order). -/
def updateSlidesOrdered (root : List String) (incoming_slides : List SlidePatch)
    (slides : List Slide) : List Slide :=
  let slide_by_id := incoming_slides.foldl (patchStep root) (slideDictOf slides)
  slides.map (fun s => (dictGet slide_by_id s.id).getD s)

/-- `StudioState.update_slides` (state effect; the handler's JSON reply
    is a projection of the resulting state). -/
def update_slides (root : List String) (image_mode : String) (min_conf : Frac)
    (st : StudioStateM) (incoming_slides : List SlidePatch) : StudioStateM :=
  let st := { st with slides := updateSlidesOrdered root incoming_slides st.slides }
  sync_session_from_slides (refresh_quality image_mode min_conf st)

/-- A `PUT /api/session` payload (`some` means the key is present). -/
structure SessionPatch where
  selected_slides : Option (List String) := none
  slide_order : Option (List String) := none
  draft_overrides : Option (List (String × SlideOverride)) := none
  note_blocks : Option (List (String × String)) := none
  pinned_evidence : Option (List (String × List String)) := none
  presenter : Option Presenter := none
  last_validation : Option QReport := none
deriving DecidableEq, Repr

/-- `StudioState.save_session` (state effect, including the written
    `session.json` content). -/
def studio_save_session (st : StudioStateM) (payload : SessionPatch) : StudioStateM :=
  let s := st.session
  let s := { s with selected_slides := payload.selected_slides.getD s.selected_slides }
  let s := { s with slide_order := payload.slide_order.getD s.slide_order }
  let s := { s with draft_overrides := payload.draft_overrides.getD s.draft_overrides }
  let s := { s with note_blocks := payload.note_blocks.getD s.note_blocks }
  let s := { s with pinned_evidence := payload.pinned_evidence.getD s.pinned_evidence }
  let s := { s with presenter := payload.presenter.getD s.presenter }
  let s := { s with last_validation := payload.last_validation.getD s.last_validation }
  { st with session := s, sessionFile := some (sessionFileContent s) }

/-- The slide-list transformation performed by `StudioState.auto_fix_visuals`:
    re-attach visuals to the whole deck, then merge only the selected
    slides back (or the whole deck when no selection was posted). -/
def autoFixSlides (score : Slide → Media → Frac) (image_mode : String)
    (max_images_per_slide : Int) (min_conf : Frac) (slides : List Slide)
    (media : List Media) (slide_ids : Option (List String)) : List Slide :=
  let updated := (attach_visuals_to_slides score slides media image_mode
    max_images_per_slide min_conf).1
  let selected := slide_ids.getD []
  if selected ≠ [] then
    slides.map (fun s =>
      if s.id ∈ selected then ((updated.find? (fun u => u.id = s.id)).getD s) else s)
  else updated

/-- `StudioState.auto_fix_visuals` (state effect). -/
def auto_fix_visuals (score : Slide → Media → Frac) (image_mode : String)
    (max_images_per_slide : Int) (min_conf : Frac) (st : StudioStateM)
    (slide_ids : Option (List String)) : StudioStateM :=
  let st := { st with slides := (autoFixSlides score image_mode max_images_per_slide
    min_conf st.slides st.media slide_ids) }
  sync_session_from_slides (refresh_quality image_mode min_conf st)

/-- `StudioState.export`: the outputs dict and the `(path, content)`
    writes it performs.  The renderer/`json.dumps` strings are parameters
    (pure templating out of scope); the path logic is embedded. -/
def studio_export (root : List String) (fmt : String) (output_path : Option String)
    (gen_html gen_markdown gen_json : String) :
    Except HLError (List (String × String) × List (List String × String)) :=
  let outputs : List (String × String) :=
    (if fmt = "html" ∨ fmt = "both" then [("html", gen_html)] else []) ++
    (if fmt = "markdown" ∨ fmt = "both" then [("markdown", gen_markdown)] else []) ++
    (if fmt = "json" then [("json", gen_json)] else [])
  match output_path with
  | none => .ok (outputs, [])
  | some op =>
      if op = "" then .ok (outputs, [])
      else
        match safe_project_path root op with
        | .error e => .error e
        | .ok safe =>
          let writes : List (List String × String) := []
          let writes :=
            if outputs.any (fun o => o.1 = "html") then
              writes ++ [((if fmt = "html" then safe else pyWithSuffix safe ".html"), gen_html)]
            else writes
          let writes :=
            if outputs.any (fun o => o.1 = "markdown") then
              writes ++ [((if fmt = "markdown" then safe else pyWithSuffix safe ".md"),
                gen_markdown)]
            else writes
          let writes :=
            if outputs.any (fun o => o.1 = "json") then
              writes ++ [((if pathSuffix safe = ".json" then safe else pyWithSuffix safe ".json"),
                gen_json)]
            else writes
          .ok (outputs, writes)

/-! ## Claim theorems -/

/-- C8: `collect_git_context` never propagates a git failure: it is a
    total function of the git-invocation outcomes, and each failing
    invocation (not a repository, unreadable branch metadata,
    undetectable base branch, failing merge-base/diff) is recorded in
    `change_summary` and `warnings` of the returned payload. -/
theorem c8_collect_git_context_degrades (o : GitOracle) (base : Option String) :
    (∀ e, o.is_inside_work_tree = .error e →
      (collect_git_context o true base).change_summary =
        "Git context unavailable (not a repository)." ∧
      (collect_git_context o true base).warnings ≠ []) ∧
    (∀ v e, o.is_inside_work_tree = .ok v → pyStrip v = "true" → o.branch = .error e →
      (collect_git_context o true base).change_summary = "Git metadata partially unavailable." ∧
      (collect_git_context o true base).warnings ≠ []) ∧
    (∀ v b e, o.is_inside_work_tree = .ok v → pyStrip v = "true" → o.branch = .ok b →
      o.head_sha = .error e →
      (collect_git_context o true base).change_summary = "Git metadata partially unavailable." ∧
      (collect_git_context o true base).warnings ≠ []) ∧
    (∀ v b h, o.is_inside_work_tree = .ok v → pyStrip v = "true" → o.branch = .ok b →
      o.head_sha = .ok h → detect_base_branch o base = none →
      (collect_git_context o true base).change_summary =
        "Base branch unavailable; showing current branch only." ∧
      (collect_git_context o true base).warnings ≠ []) ∧
    (∀ v b h d e, o.is_inside_work_tree = .ok v → pyStrip v = "true" → o.branch = .ok b →
      o.head_sha = .ok h → detect_base_branch o base = some d →
      (o.merge_base = .error e ∨ (∃ mb, o.merge_base = .ok mb ∧ o.diff_names = .error e)) →
      (collect_git_context o true base).change_summary =
        "Branch comparison unavailable due to git command failure." ∧
      (collect_git_context o true base).warnings ≠ []) := by
  refine ⟨?_, ?_, ?_, ?_, ?_⟩
  · intro e he
    simp [collect_git_context, runGitCall, he]
  · intro v e hv hstrip hb
    simp [collect_git_context, runGitCall, hv, hstrip, hb]
  · intro v b e hv hstrip hb hh
    simp [collect_git_context, runGitCall, hv, hstrip, hb, hh]
  · intro v b h hv hstrip hb hh hdet
    simp [collect_git_context, runGitCall, hv, hstrip, hb, hh, hdet]
  · intro v b h d e hv hstrip hb hh hdet hfail
    rcases hfail with hmb | ⟨mb, hmb, hdiff⟩
    · simp [collect_git_context, runGitCall, hv, hstrip, hb, hh, hdet, hmb]
    · simp [collect_git_context, runGitCall, hv, hstrip, hb, hh, hdet, hmb, hdiff]

def c8Oracle : GitOracle :=
  { is_inside_work_tree := .error "fatal: not a git repository"
    branch := .error "unused"
    head_sha := .error "unused"
    ref_exists := fun _ => false
    merge_base := .error "unused"
    diff_names := .error "unused" }

/-- Witness for C8 at a concrete failing oracle. -/
theorem c8_collect_git_context_degrades_witness :
    (collect_git_context c8Oracle true none).change_summary =
      "Git context unavailable (not a repository)." ∧
    (collect_git_context c8Oracle true none).warnings ≠ [] :=
  (c8_collect_git_context_degrades c8Oracle none).1 "fatal: not a git repository" rfl

/-- C9: an additional doc path that resolves outside the project root is
    rejected: the parsed document fields are untouched and a warning is
    recorded — the skip warning when the path exists as a file, the
    not-found warning otherwise. -/
theorem c9_additional_doc_outside_root (d : AddDoc) (doc : DocData)
    (warnings : List String) (houtside : d.within = false) :
    (parse_additional_doc d doc warnings).1 = doc ∧
    (d.is_file = true →
      (parse_additional_doc d doc warnings).2 =
        warnings ++ ["Skipped doc outside project directory: " ++ d.resolved]) ∧
    (d.is_file = false →
      (parse_additional_doc d doc warnings).2 =
        warnings ++ ["Additional doc not found: " ++ d.raw]) := by
  cases hfile : d.is_file <;>
    simp [parse_additional_doc, houtside, hfile]

def c9Doc : AddDoc :=
  { raw := "../secrets/notes.md"
    resolved := "/home/user/secrets/notes.md"
    is_file := true
    within := false
    suffix := ".md"
    readResult := .ok "# Secret\ncontent" }

def c9DocData : DocData :=
  { title := "proj", description := "", problem := "", solution := ""
    features := [], impact_points := [], future_items := [], installation := "", usage := "" }

/-- Witness for C9 at a concrete outside-root doc. -/
theorem c9_additional_doc_outside_root_witness :
    (parse_additional_doc c9Doc c9DocData []).1 = c9DocData ∧
    (c9Doc.is_file = true →
      (parse_additional_doc c9Doc c9DocData []).2 =
        [] ++ ["Skipped doc outside project directory: " ++ c9Doc.resolved]) ∧
    (c9Doc.is_file = false →
      (parse_additional_doc c9Doc c9DocData []).2 =
        [] ++ ["Additional doc not found: " ++ c9Doc.raw]) :=
  c9_additional_doc_outside_root c9Doc c9DocData [] rfl

/-- C6: when some slide's content contains a banned hype phrase, the
    quality gate reports status "fail".  (spec-modelled: quality.py is
    absent from the sources; `evaluate_quality` is modelled from the
    spec.) -/
theorem c6_quality_fails_on_hype (slides : List Slide) (image_mode : String)
    (min_conf : Frac) (s : Slide) (phrase : String) (hs : s ∈ slides)
    (hp : phrase ∈ BANNED_HYPE_PHRASES)
    (hc : strContainsSub (pyLower (s.content.getD "")) phrase = true) :
    (evaluate_quality slides image_mode min_conf).status = "fail" := by
  have hhype : slideHasHype s phrase = true := by
    simp [slideHasHype, hc]
  have hmsg : ("Slide '" ++ s.id ++ "' contains banned hype phrase '" ++ phrase ++ "'.") ∈
      slides.bind (fun sl =>
        (BANNED_HYPE_PHRASES.filter (fun p => slideHasHype sl p)).map (fun p =>
          "Slide '" ++ sl.id ++ "' contains banned hype phrase '" ++ p ++ "'.")) := by
    refine List.mem_bind.mpr ⟨s, hs, ?_⟩
    exact List.mem_map.mpr ⟨phrase, List.mem_filter.mpr ⟨hp, hhype⟩, rfl⟩
  unfold evaluate_quality
  simp only []
  rw [if_neg]
  intro hnil
  have : ("Slide '" ++ s.id ++ "' contains banned hype phrase '" ++ phrase ++ "'.") ∈
      ([] : List String) := by
    rw [← hnil]; exact List.mem_append_left _ hmsg
  simp at this

def c6Slide : Slide :=
  { id := "solution", type := "content", title := "Our Solution"
    content := some "A revolutionary approach to slide generation."
    evidence_refs := some ["doc.solution"] }

/-- Witness for C6 at a concrete hype-laden slide. -/
theorem c6_quality_fails_on_hype_witness :
    (evaluate_quality [c6Slide] "off" (fq 72 100)).status = "fail" :=
  c6_quality_fails_on_hype [c6Slide] "off" (fq 72 100) c6Slide "revolutionary"
    (by decide) (by decide) (by decide)

/-- C3 as frozen: in "hybrid" mode *any* enhancement error falls back to
    the deterministic slides.  (In the code the fallback additionally
    requires `strict_quality` to be false.) -/
def claimC3Statement : Prop :=
  ∀ (slides : List Slide) (config : Config) (mp : String) (err : AiFailure),
    config.ai.enabled = true → config.ai.backend = "llama.cpp" →
    (config.general.mode = "hybrid" →
      ∃ report, enhance_slides_with_ai slides config (some mp) (.error err) =
        .ok (slides, report)) ∧
    (config.general.mode = "ai" →
      ∃ e, enhance_slides_with_ai slides config (some mp) (.error err) = .error e)

def c3Config : Config :=
  { general :=
      { mode := "hybrid", format := "both", theme := "default"
        max_slides := none, strict_quality := true }
    git := { base_branch := none, include_branch_context := true }
    ai := { enabled := true, backend := "llama.cpp", model_alias := "qwen2.5-3b-instruct-q4_k_m" }
    images :=
      { enabled := true, mode := "auto", max_images_per_slide := 1
        min_confidence := fq 72 100, visual_style := "mixed" } }

/-- C3 counterexample: with the default `strict_quality = true`, a
    backend error in "hybrid" mode propagates instead of falling back. -/
theorem c3_counterexample : ¬ claimC3Statement := by
  intro h
  obtain ⟨report, hr⟩ :=
    (h [] c3Config "model" (.generic "backend crashed") rfl rfl).1 rfl
  have hval : enhance_slides_with_ai [] c3Config (some "model")
      (.error (.generic "backend crashed")) =
      .error { code := .RUNTIME_ERROR, message := "AI enhancement failed."
               hint := some "backend crashed" } := rfl
  rw [hval] at hr
  exact Except.noConfusion hr

/-- C3 (amended): when the mode is "hybrid" *and strict_quality is
    false*, any error raised while generating or merging the model output
    returns the deterministic slides unchanged with a warning appended to
    the quality report; when the mode is "ai" the error propagates as a
    fatal `HackLuminaryError`.  (Backend-loading errors — unsupported
    backend or missing model — are raised outside the try block and
    propagate in every mode.) -/
theorem c3_hybrid_fallback_ai_fatal (slides : List Slide) (config : Config) (mp : String)
    (err : AiFailure) (henabled : config.ai.enabled = true)
    (hbackend : config.ai.backend = "llama.cpp") :
    (config.general.mode = "hybrid" → config.general.strict_quality = false →
      enhance_slides_with_ai slides config (some mp) (.error err) =
        .ok (slides, (evaluate_quality slides "off" (fq 72 100)).appendWarning
          (match err with
           | .hl _ => "AI enhancement was skipped due to backend or schema issues."
           | .generic msg => "AI enhancement skipped: " ++ msg))) ∧
    (config.general.mode = "ai" →
      enhance_slides_with_ai slides config (some mp) (.error err) =
        .error (match err with
                | .hl e => e
                | .generic msg =>
                    { code := .RUNTIME_ERROR, message := "AI enhancement failed."
                      hint := some msg })) := by
  constructor
  · intro hmode hstrict
    cases err with
    | hl e => simp [enhance_slides_with_ai, hmode, hstrict, henabled, hbackend]
    | generic msg => simp [enhance_slides_with_ai, hmode, hstrict, henabled, hbackend]
  · intro hmode
    cases err with
    | hl e => simp [enhance_slides_with_ai, hmode, henabled, hbackend]
    | generic msg => simp [enhance_slides_with_ai, hmode, henabled, hbackend]

def c3ConfigNonStrict : Config :=
  { c3Config with general := { c3Config.general with strict_quality := false } }

def c3ConfigAi : Config :=
  { c3Config with general := { c3Config.general with mode := "ai" } }

/-- Witness for the amended C3 at concrete configurations. -/
theorem c3_hybrid_fallback_ai_fatal_witness :
    (enhance_slides_with_ai [] c3ConfigNonStrict (some "m") (.error (.generic "boom")) =
      .ok ([], (evaluate_quality [] "off" (fq 72 100)).appendWarning
        ("AI enhancement skipped: boom"))) ∧
    (enhance_slides_with_ai [] c3ConfigAi (some "m") (.error (.generic "boom")) =
      .error { code := .RUNTIME_ERROR, message := "AI enhancement failed."
               hint := some "boom" }) :=
  ⟨(c3_hybrid_fallback_ai_fatal [] c3ConfigNonStrict "m" (.generic "boom") rfl rfl).1 rfl rfl,
   (c3_hybrid_fallback_ai_fatal [] c3ConfigAi "m" (.generic "boom") rfl rfl).2 rfl⟩

/-- The candidate loop never chooses more than `max_images` visuals. -/
theorem chooseLoop_length_le (slide : Slide) (minc : Frac) (mi : Int) :
    ∀ (l : List (Frac × Media)) (chosen : List Visual),
      (chosen.length : Int) < mi →
      (((chooseLoop slide minc mi l chosen).length : Int)) ≤ mi := by
  intro l
  induction l with
  | nil => intro chosen h; simp only [chooseLoop]; omega
  | cons p rest ih =>
      obtain ⟨sc, m⟩ := p
      intro chosen h
      by_cases hsc : sc < minc
      · simpa only [chooseLoop, if_pos hsc] using ih chosen h
      · simp only [chooseLoop, if_neg hsc]
        by_cases hstop : mi ≤ ((chosen ++ [to_slide_visual slide m sc]).length : Int)
        · rw [if_pos hstop]
          simp only [List.length_append, List.length_singleton]
          omega
        · rw [if_neg hstop]
          exact ih _ (by simp at hstop ⊢; omega)

/-- C4 as frozen: every call bounds eligible slides by
    `max_images_per_slide` and gives title/closing slides zero visuals. -/
def claimC4Statement : Prop :=
  ∀ (score : Slide → Media → Frac) (slides : List Slide) (media : List Media)
    (mode : String) (N : Int) (minc : Frac),
    ∀ s' ∈ (attach_visuals_to_slides score slides media mode N minc).1,
      ((¬ (pyLower s'.type = "title" ∨ pyLower s'.type = "closing")) →
        (s'.visualsD.length : Int) ≤ N) ∧
      ((pyLower s'.type = "title" ∨ pyLower s'.type = "closing") →
        s'.visualsD.length = 0)

def c4Slide : Slide := { id := "problem", type := "content", title := "The Problem" }

def c4Media : Media :=
  { id := "m1", source_path := "assets/ui.png", kind := "repo_image", alt := "UI"
    tags := [], evidence_refs := [], width := none, height := none, sha256 := "" }

def c4Score : Slide → Media → Frac := fun _ _ => 0

def c4Attached : Slide :=
  ((attach_visuals_to_slides c4Score [c4Slide] [c4Media] "auto" 0 0).1.head?).getD c4Slide

/-- C4 counterexample: `max_images_per_slide = 0` is coerced to 1 by
    `int(max_images_per_slide or 1)`, so an eligible slide receives one
    visual, violating the "at most N" bound at N = 0. -/
theorem c4_counterexample : ¬ claimC4Statement := by
  intro h
  have hmem : c4Attached ∈
      (attach_visuals_to_slides c4Score [c4Slide] [c4Media] "auto" 0 0).1 := by decide
  have hb := (h c4Score [c4Slide] [c4Media] "auto" 0 0 c4Attached hmem).1 (by decide)
  have hlen : c4Attached.visualsD.length = 1 := by decide
  rw [hlen] at hb
  exact absurd hb (by decide)

/-- C4 (amended): for every call with a mode that does not normalise to
    "off" and `max_images_per_slide = N ≥ 1`, every returned slide whose
    type is neither "title" nor "closing" carries at most N visuals (in
    fact at most `min N 2`), and every returned slide of type "title" or
    "closing" carries exactly zero visuals, regardless of any media
    confidence score.  (N = 0 is coerced to 1, and in "off" mode
    pre-existing visuals pass through untouched.) -/
theorem attachOne_type (score : Slide → Media → Frac) (media : List Media)
    (nm : String) (mi : Int) (minc : Frac) (s : Slide) :
    (attachOne score media nm mi minc s).type = s.type := by
  unfold attachOne
  by_cases h : is_visual_eligible_slide s <;> simp [h]

theorem attachOne_ineligible (score : Slide → Media → Frac) (media : List Media)
    (nm : String) (mi : Int) (minc : Frac) (s : Slide)
    (h : is_visual_eligible_slide s = false) :
    (attachOne score media nm mi minc s).visualsD = [] := by
  simp [attachOne, h, Slide.visualsD]

theorem attachOne_len_le (score : Slide → Media → Frac) (media : List Media)
    (nm : String) (mi : Int) (minc : Frac) (s : Slide)
    (h : is_visual_eligible_slide s = true) (hmi : 1 ≤ mi) :
    ((attachOne score media nm mi minc s).visualsD.length : Int) ≤ mi := by
  unfold attachOne
  rw [if_neg (by simp [h])]
  simp only [Slide.visualsD, Option.getD_some]
  by_cases hfb : chooseLoop s minc mi
      (pySorted scoreLe (media.map (fun m => (score s m, m)))) [] = [] ∧ nm = "strict"
  · rw [if_pos hfb]
    cases hfind : (pySorted scoreLe (media.map (fun m => (score s m, m)))).find?
        (fun p => decide (minc ≤ p.1)) with
    | none => simp; omega
    | some p => simp; omega
  · rw [if_neg hfb]
    exact chooseLoop_length_le s minc mi _ [] (by simp; omega)

/-- C4 (amended): for every call with a mode that does not normalise to
    "off" and `max_images_per_slide = N ≥ 1`, every returned slide whose
    type is neither "title" nor "closing" carries at most N visuals (in
    fact at most `min N 2`), and every returned slide of type "title" or
    "closing" carries exactly zero visuals, regardless of any media
    confidence score.  (N = 0 is coerced to 1, and in "off" mode
    pre-existing visuals pass through untouched.) -/
theorem c4_visuals_per_slide_bounds (score : Slide → Media → Frac) (slides : List Slide)
    (media : List Media) (mode : String) (N : Int) (minc : Frac)
    (hmode : normMode mode ≠ "off") (hN : 1 ≤ N) :
    ∀ s' ∈ (attach_visuals_to_slides score slides media mode N minc).1,
      ((¬ (pyLower s'.type = "title" ∨ pyLower s'.type = "closing")) →
        (s'.visualsD.length : Int) ≤ N) ∧
      ((pyLower s'.type = "title" ∨ pyLower s'.type = "closing") →
        s'.visualsD.length = 0) := by
  intro s' hmem
  have hIntOr : pyIntOr1 N = N := by unfold pyIntOr1; rw [if_neg (by omega)]
  have hmi : max 0 (min (pyIntOr1 N) 2) = min N 2 := by rw [hIntOr]; omega
  simp only [attach_visuals_to_slides, hmi] at hmem
  rw [if_neg (by push_neg; exact ⟨hmode, by omega⟩)] at hmem
  by_cases hmedia : media = []
  · rw [if_pos hmedia] at hmem
    simp only at hmem
    obtain ⟨s0, _, rfl⟩ := List.mem_map.mp hmem
    refine ⟨fun _ => ?_, fun _ => ?_⟩ <;> simp [Slide.visualsD] <;> omega
  · rw [if_neg hmedia] at hmem
    simp only at hmem
    obtain ⟨s0, _, rfl⟩ := List.mem_map.mp hmem
    have htype := attachOne_type score media (normMode mode) (min N 2) minc s0
    have heligiff : is_visual_eligible_slide s0 = true ↔
        ¬ (pyLower s0.type = "title" ∨ pyLower s0.type = "closing") := by
      simp [is_visual_eligible_slide]
    constructor
    · intro hne
      rw [htype] at hne
      have helig : is_visual_eligible_slide s0 = true := heligiff.mpr hne
      have := attachOne_len_le score media (normMode mode) (min N 2) minc s0 helig (by omega)
      omega
    · intro hty
      rw [htype] at hty
      have helig : is_visual_eligible_slide s0 = false := by
        rcases hty with h | h <;> simp [is_visual_eligible_slide, h]
      rw [attachOne_ineligible score media (normMode mode) (min N 2) minc s0 helig]
      rfl

def c4TitleSlide : Slide :=
  { id := "title", type := "title", title := "Proj", visuals := some [] }

/-- Witness for the amended C4 at a concrete call, with both hypotheses
    discharged by evaluation. -/
theorem c4_visuals_per_slide_bounds_witness :
    normMode "auto" ≠ "off" ∧ (1 : Int) ≤ 2 ∧
    (∀ s' ∈ (attach_visuals_to_slides c4Score [c4Slide, c4TitleSlide] [c4Media]
        "auto" 2 (fq 72 100)).1,
      ((¬ (pyLower s'.type = "title" ∨ pyLower s'.type = "closing")) →
        (s'.visualsD.length : Int) ≤ 2) ∧
      ((pyLower s'.type = "title" ∨ pyLower s'.type = "closing") →
        s'.visualsD.length = 0)) :=
  ⟨by decide, by decide,
   c4_visuals_per_slide_bounds c4Score [c4Slide, c4TitleSlide] [c4Media] "auto" 2 (fq 72 100)
     (by decide) (by decide)⟩

/-- C10: `StudioState.export` with `output_path="."` (which resolves to
    the project root itself, passing the `_safe_project_path` guard) and
    format "json" writes `<root-name>.json` as a *sibling* of the project
    root: the written path is outside the project directory, contradicting
    the guard's stated intent. -/
theorem c10_export_escapes_project_root :
    studio_export ["tmp", "proj"] "json" (some ".") "H" "M" "J" =
      .ok ([("json", "J")], [(["tmp", "proj.json"], "J")]) ∧
    isPathPrefixOf ["tmp", "proj"] ["tmp", "proj.json"] = false :=
  ⟨by decide, by decide⟩

theorem refsFilter_mem {r : String} {cands ids : List String}
    (h : r ∈ refsFilter cands ids) : r ∈ ids := by
  have := (List.mem_filter.mp h).2
  simpa using this

theorem claim_from_text_refs (t : String) (refs : List String) (k : Frac) :
    (claim_from_text t refs k).evidence_refs = refs := rfl

theorem slideSetdefaults_claimsD (s : Slide) (L : List Claim) (h : s.claims = some L) :
    (slideSetdefaults s).claimsD = L := by
  simp [slideSetdefaults, Slide.claimsD, h]

/-- Every claim of every deterministic slide only references ids from the
    evidence id set it was built against (`_refs` filters candidates). -/
theorem det_slides_claims_subset (ca : Analysis) (dd : DocData) (gc : GitPayload)
    (ids : List String) (types : List String) :
    ∀ s ∈ build_deterministic_slides ca dd gc ids types,
      ∀ c ∈ s.claimsD, ∀ r ∈ c.evidence_refs, r ∈ ids := by
  intro s hs c hc r hr
  unfold build_deterministic_slides at hs
  obtain ⟨s0, hs0, rfl⟩ := List.mem_map.mp hs
  obtain ⟨t, _, hcr⟩ := List.mem_filterMap.mp hs0
  split_ifs at hcr
  all_goals first
    | exact Option.noConfusion hcr
    | (injection hcr with hinj
       subst hinj
       rw [slideSetdefaults_claimsD _ _ rfl] at hc
       first
         | (simp only [List.mem_singleton] at hc
            subst hc
            rw [claim_from_text_refs] at hr
            exact refsFilter_mem hr)
         | (obtain ⟨it, _, rfl⟩ := List.mem_map.mp hc
            rw [claim_from_text_refs] at hr
            exact refsFilter_mem hr))

/-- In deterministic mode (or with AI disabled) the enhancement pass
    returns the input slides unchanged whenever it succeeds. -/
theorem enhance_det_preserves (slides : List Slide) (config : Config) (mp : Option String)
    (gen : Except AiFailure MergePayload) (p : List Slide × QReport)
    (hmode : config.general.mode = "deterministic" ∨ config.ai.enabled = false)
    (h : enhance_slides_with_ai slides config mp gen = .ok p) : p.1 = slides := by
  simp only [enhance_slides_with_ai] at h
  rw [if_pos (by
    rcases hmode with h1 | h1
    · exact Or.inl h1
    · exact Or.inr (by simp [h1]))] at h
  split at h
  · injection h with h2
    rw [← h2]
  · exact Except.noConfusion h

theorem attachOne_claims (score : Slide → Media → Frac) (media : List Media)
    (nm : String) (mi : Int) (minc : Frac) (s : Slide) :
    (attachOne score media nm mi minc s).claims = s.claims := by
  unfold attachOne
  by_cases h : is_visual_eligible_slide s <;> simp [h]

/-- Visual attachment only rewrites the `visuals` field: every returned
    slide keeps the claims of a corresponding input slide. -/
theorem attach_preserves_claims (score : Slide → Media → Frac) (slides : List Slide)
    (media : List Media) (mode : String) (mi : Int) (minc : Frac) :
    ∀ s' ∈ (attach_visuals_to_slides score slides media mode mi minc).1,
      ∃ s ∈ slides, s'.claims = s.claims := by
  intro s' hmem
  simp only [attach_visuals_to_slides] at hmem
  split at hmem
  · obtain ⟨s, hs, rfl⟩ := List.mem_map.mp hmem
    exact ⟨s, hs, rfl⟩
  · split at hmem
    · obtain ⟨s1, hs1, rfl⟩ := List.mem_map.mp hmem
      obtain ⟨s, hs, rfl⟩ := List.mem_map.mp hs1
      exact ⟨s, hs, rfl⟩
    · obtain ⟨s1, hs1, rfl⟩ := List.mem_map.mp hmem
      obtain ⟨s, hs, rfl⟩ := List.mem_map.mp hs1
      refine ⟨s, hs, ?_⟩
      rw [attachOne_claims]

/-- `runGenFinish` keeps the evidence list intact and only ever rewrites
    slide visuals. -/
theorem runGenFinish_slides_evidence (config : Config) (ca : Analysis) (gc : GitPayload)
    (dd : DocData) (im : String) (media : List Media) (evidence : List Evidence)
    (score : Slide → Media → Frac) (slides : List Slide) (payload : Payload)
    (h : runGenFinish config ca gc dd im media evidence score slides = .ok payload) :
    payload.evidence = evidence ∧
    ∀ s' ∈ payload.slides, ∃ s ∈ slides, s'.claims = s.claims := by
  simp only [runGenFinish] at h
  by_cases him : im ≠ "off" <;>
    [rw [if_pos him] at h; rw [if_neg him] at h] <;>
  · split at h
    · exact Except.noConfusion h
    · injection h with h2
      subst h2
      refine ⟨rfl, ?_⟩
      intro s' hmem
      simp only at hmem
      first
        | exact attach_preserves_claims _ _ _ _ _ _ s' hmem
        | exact ⟨s', hmem, rfl⟩

/-- C1 (amended): in deterministic mode (or with AI disabled), every
    claim attached to any slide of the payload produced by a successful
    generation run references only evidence ids present in the evidence
    list of the same run.  (The AI merge path can copy unchecked
    `evidence_refs` straight from the model output, which is what the
    counterexample exhibits.) -/
theorem c1_claim_refs_subset (config : Config) (code_analysis : Analysis)
    (doc_data : DocData) (doc_warnings : List String) (git_context : GitPayload)
    (mediaIndexed : List Media) (iiw : List String) (sha1hex : String → String)
    (read_key_file : String → Option String) (readme_rel readme_text : String)
    (model_path : Option String) (genResult : Except AiFailure MergePayload)
    (score : Slide → Media → Frac) (requested : Option (List String))
    (max_slides : Option Int) (result : RunResult)
    (hmode : config.general.mode = "deterministic" ∨ config.ai.enabled = false)
    (hok : run_generation_core config code_analysis doc_data doc_warnings git_context
      mediaIndexed iiw sha1hex read_key_file readme_rel readme_text model_path genResult
      score requested max_slides = .ok result) :
    ∀ s ∈ result.payload.slides, ∀ c ∈ s.claimsD, ∀ r ∈ c.evidence_refs,
      r ∈ evidenceIds result.payload.evidence := by
  intro s hs c hc r hr
  simp only [run_generation_core] at hok
  split at hok
  · exact Except.noConfusion hok
  · rename_i slides1 report1 heq
    split at hok
    · exact Except.noConfusion hok
    · rename_i payload heq2
      injection hok with h3
      subst h3
      obtain ⟨hev, hcl⟩ := runGenFinish_slides_evidence _ _ _ _ _ _ _ _ _ _ heq2
      obtain ⟨s0, hs0, hclaims⟩ := hcl s hs
      have hdet : (slides1, report1).1 = runDeterministicSlides config code_analysis
          doc_data git_context
          (build_evidence sha1hex code_analysis doc_data git_context readme_rel readme_text
            read_key_file (effMediaCatalog config mediaIndexed))
          requested max_slides :=
        enhance_det_preserves _ _ _ _ _ hmode heq
      simp only at hdet
      subst hdet
      rw [runDeterministicSlides] at hs0
      have hsub := det_slides_claims_subset _ _ _ _ _ s0 hs0 c
        (by rw [Slide.claimsD, ← hclaims, ← Slide.claimsD]; exact hc) r hr
      rw [hev]
      exact hsub

/-- C1 as frozen: every generation run keeps claim `evidence_refs` inside
    the run's evidence id set. -/
def claimC1Statement : Prop :=
  ∀ (config : Config) (code_analysis : Analysis) (doc_data : DocData)
    (doc_warnings : List String) (git_context : GitPayload) (mediaIndexed : List Media)
    (iiw : List String) (sha1hex : String → String) (read_key_file : String → Option String)
    (readme_rel readme_text : String) (model_path : Option String)
    (genResult : Except AiFailure MergePayload) (score : Slide → Media → Frac)
    (requested : Option (List String)) (max_slides : Option Int) (result : RunResult),
    run_generation_core config code_analysis doc_data doc_warnings git_context mediaIndexed
      iiw sha1hex read_key_file readme_rel readme_text model_path genResult score requested
      max_slides = .ok result →
    ∀ s ∈ result.payload.slides, ∀ c ∈ s.claimsD, ∀ r ∈ c.evidence_refs,
      r ∈ evidenceIds result.payload.evidence

def c1Analysis : Analysis :=
  { project_name := "proj", languages := [], primary_language := "Unknown"
    file_count := 0, total_lines := 0, key_files := [], dependencies := []
    frameworks := [], features := [], docs_count := 0, config_count := 0, warnings := [] }

def c1Doc : DocData :=
  { title := "proj", description := "", problem := "", solution := "", features := []
    impact_points := [], future_items := [], installation := "", usage := "" }

def c1CfgAi : Config :=
  { general :=
      { mode := "ai", format := "json", theme := "default"
        max_slides := some 1, strict_quality := true }
    git := { base_branch := none, include_branch_context := false }
    ai := { enabled := true, backend := "llama.cpp", model_alias := "m" }
    images :=
      { enabled := false, mode := "auto", max_images_per_slide := 1
        min_confidence := fq 72 100, visual_style := "mixed" } }

def c1Update : MergeUpdate :=
  { id := some "title", title := none, subtitle := none, content := none
    list_items := none
    claims := some
      [{ text := "Fabricated", evidence_refs := some ["bogus.ref"], confidence := none }]
    notes := none }

def c1Gen : Except AiFailure MergePayload := .ok { slides := some [c1Update] }

def c1BadRun : Except HLError RunResult :=
  run_generation_core c1CfgAi c1Analysis c1Doc [] gitPayloadInit [] []
    (fun _ => "") (fun _ => none) "" "" (some "mp") c1Gen (fun _ _ => 0) none none

def c1JunkResult : RunResult :=
  { payload :=
      { schema_version := ""
        metadata :=
          { project := "", languages := [], dependencies := [], frameworks := []
            file_count := 0, total_lines := 0, docs_count := 0, config_count := 0 }
        git_context :=
          { branch := "", base_branch := "", head_sha := "", base_sha := ""
            changed_files_count := 0, top_changed_paths := [], change_summary := "" }
        slides := [], evidence := [], media_catalog := [], quality_report := emptyQReport }
    warnings := [] }

def c1BadResult : RunResult :=
  match c1BadRun with
  | .ok r => r
  | .error _ => c1JunkResult

def c1BadSlide : Slide :=
  (c1BadResult.payload.slides.head?).getD { id := "", type := "", title := "" }

def c1BadClaim : Claim :=
  (c1BadSlide.claimsD.head?).getD { text := "", evidence_refs := [], confidence := 0 }

/-- C1 counterexample: in "ai" mode `_merge_ai_payload` copies claim
    `evidence_refs` straight from the model output without checking them
    against the evidence id set, so the payload of a completed run can
    reference a non-existent evidence id. -/
theorem c1_counterexample : ¬ claimC1Statement := by
  intro h
  have hok : c1BadRun = .ok c1BadResult := by decide
  have := h c1CfgAi c1Analysis c1Doc [] gitPayloadInit [] [] (fun _ => "") (fun _ => none)
    "" "" (some "mp") c1Gen (fun _ _ => 0) none none c1BadResult hok c1BadSlide (by decide)
    c1BadClaim (by decide) "bogus.ref" (by decide)
  exact absurd this (by decide)

def c1CfgDet : Config :=
  { c1CfgAi with general := { c1CfgAi.general with mode := "deterministic" } }

def c1DetRun : Except HLError RunResult :=
  run_generation_core c1CfgDet c1Analysis c1Doc [] gitPayloadInit [] []
    (fun _ => "") (fun _ => none) "" "" none (.error (.generic "unused"))
    (fun _ _ => 0) none none

def c1DetResult : RunResult :=
  match c1DetRun with
  | .ok r => r
  | .error _ => c1JunkResult

/-- Witness for the amended C1 on a concrete deterministic run. -/
theorem c1_claim_refs_subset_witness :
    (c1CfgDet.general.mode = "deterministic" ∨ c1CfgDet.ai.enabled = false) ∧
    c1DetRun = .ok c1DetResult ∧
    (∀ s ∈ c1DetResult.payload.slides, ∀ c ∈ s.claimsD, ∀ r ∈ c.evidence_refs,
      r ∈ evidenceIds c1DetResult.payload.evidence) :=
  ⟨Or.inl rfl, by decide,
   c1_claim_refs_subset c1CfgDet c1Analysis c1Doc [] gitPayloadInit [] []
     (fun _ => "") (fun _ => none) "" "" none (.error (.generic "unused"))
     (fun _ _ => 0) none none c1DetResult (Or.inl rfl) (by decide)⟩

/-! ## C7: idempotence of the Studio mutating operations -/

/-- The record-literal normal form of `applySlidePatch`. -/
def patchedSlide (root : List String) (s : Slide) (p : SlidePatch) : Slide :=
  { id := s.id
    type := s.type
    title := match p.title with | some v => pySlice v 5000 | none => s.title
    subtitle := match p.subtitle with | some v => some (pySlice v 5000) | none => s.subtitle
    content := match p.content with | some v => some (pySlice v 5000) | none => s.content
    list_items := match p.list_items with
      | some l => some (((l.map pyStrip).filter (fun i => i ≠ "")).take 10)
      | none => s.list_items
    evidence_refs := match p.evidence_refs with
      | some l => some (((l.map pyStrip).filter (fun i => i ≠ "")).take 12)
      | none => s.evidence_refs
    claims := match p.claims with
      | some c => some (sanitize_claims (some c) s.refsD)
      | none => s.claims
    notes := match p.notes with | some v => some (pySlice v 800) | none => s.notes
    visuals := match p.visuals with
      | some _ => some (sanitize_visuals root p.visuals)
      | none => s.visuals }

theorem applySlidePatch_eq (root : List String) (s : Slide) (p : SlidePatch) :
    applySlidePatch root s p = patchedSlide root s p := by
  rcases p with ⟨pid, pt, psub, pc, pli, pcl, per, pn, pv⟩
  simp only [applySlidePatch, patchedSlide]
  cases pt <;> cases psub <;> cases pc <;> cases pli <;> cases pcl <;> cases per <;>
    cases pn <;> cases pv <;> rfl

theorem applySlidePatch_id (root : List String) (s : Slide) (p : SlidePatch) :
    (applySlidePatch root s p).id = s.id := by
  rw [applySlidePatch_eq]; rfl

/-- Every claim entry of the patch names its evidence refs explicitly. -/
def patchClaimsExplicit (p : SlidePatch) : Bool :=
  match p.claims with
  | none => true
  | some c => c.all (fun item => item.evidence_refs.isSome)

theorem sanitize_claims_explicit (c : List MergeClaim)
    (h : ∀ item ∈ c, item.evidence_refs.isSome = true) (r₁ r₂ : List String) :
    sanitize_claims (some c) r₁ = sanitize_claims (some c) r₂ := by
  simp only [sanitize_claims]
  refine List.filterMap_congr (fun item hmem => ?_)
  have hi := h item (List.mem_of_mem_take hmem)
  match hrefs : item.evidence_refs with
  | some refs => simp [hrefs]
  | none => rw [hrefs] at hi; simp at hi

/-! Dict lookup lemmas. -/

theorem find?_overwrite_self (k : String) (v : Slide) :
    ∀ m : List (String × Slide), m.any (fun p => p.1 = k) = true →
    (m.map (fun p => if p.1 = k then (k, v) else p)).find? (fun p => p.1 = k) = some (k, v) := by
  intro m
  induction m with
  | nil => simp
  | cons p t ih =>
      intro hany
      by_cases hp : p.1 = k
      · rw [List.map_cons, if_pos hp, List.find?_cons_of_pos _ (by simp)]
      · rw [List.map_cons, if_neg hp, List.find?_cons_of_neg _ (by simp [hp])]
        exact ih (by simpa [List.any_cons, hp] using hany)

theorem find?_overwrite_ne (k j : String) (v : Slide) (h : j ≠ k) :
    ∀ m : List (String × Slide),
    (m.map (fun p => if p.1 = k then (k, v) else p)).find? (fun p => p.1 = j) =
      m.find? (fun p => p.1 = j) := by
  intro m
  induction m with
  | nil => simp
  | cons p t ih =>
      by_cases hp : p.1 = k
      · have hpj : ¬ p.1 = j := fun hc => h (by rw [← hc, hp])
        rw [List.map_cons, if_pos hp,
          List.find?_cons_of_neg _ (by simp [Ne.symm h]),
          List.find?_cons_of_neg _ (by simp [hpj])]
        exact ih
      · by_cases hpj : p.1 = j
        · rw [List.map_cons, if_neg hp,
            List.find?_cons_of_pos _ (by simp [hpj]),
            List.find?_cons_of_pos _ (by simp [hpj])]
        · rw [List.map_cons, if_neg hp,
            List.find?_cons_of_neg _ (by simp [hpj]),
            List.find?_cons_of_neg _ (by simp [hpj])]
          exact ih

theorem dictGet_insert_self (m : List (String × Slide)) (k : String) (v : Slide) :
    dictGet (dictInsert m k v) k = some v := by
  by_cases hany : m.any (fun p => p.1 = k) = true
  · simp only [dictInsert, if_pos hany, dictGet]
    rw [find?_overwrite_self k v m hany]
    rfl
  · simp only [dictInsert, if_neg hany, dictGet]
    rw [List.find?_append]
    have hnone : m.find? (fun p => p.1 = k) = none := by
      rw [List.find?_eq_none]
      intro p hp hpk
      exact hany (List.any_eq_true.mpr ⟨p, hp, hpk⟩)
    rw [hnone, List.find?_cons_of_pos _ (by simp)]
    rfl

theorem dictGet_insert_ne (m : List (String × Slide)) (k j : String) (v : Slide)
    (h : j ≠ k) : dictGet (dictInsert m k v) j = dictGet m j := by
  by_cases hany : m.any (fun p => p.1 = k) = true
  · simp only [dictInsert, if_pos hany, dictGet]
    rw [find?_overwrite_ne k j v h m]
  · simp only [dictInsert, if_neg hany, dictGet]
    rw [List.find?_append, List.find?_cons_of_neg _ (by simp [Ne.symm h]),
      List.find?_nil, Option.or_none]

/-! Characterizing the slide dict and the patch fold. -/

theorem insFold_get_untouched (i : String) :
    ∀ (slides : List Slide) (m : List (String × Slide)), (∀ s ∈ slides, s.id ≠ i) →
    dictGet (slides.foldl (fun m s => dictInsert m s.id s) m) i = dictGet m i := by
  intro slides
  induction slides with
  | nil => intro m _; rfl
  | cons s t ih =>
      intro m h
      have hs : s.id ≠ i := h s (by simp)
      rw [List.foldl_cons, ih (dictInsert m s.id s) (fun x hx => h x (by simp [hx])),
        dictGet_insert_ne m s.id i s (Ne.symm hs)]

theorem insFold_get (i : String) :
    ∀ (slides : List Slide), (slides.map Slide.id).Nodup →
    ∀ m : List (String × Slide),
    dictGet (slides.foldl (fun m s => dictInsert m s.id s) m) i =
      match slides.find? (fun s => s.id = i) with
      | some s => some s
      | none => dictGet m i := by
  intro slides
  induction slides with
  | nil => intro _ m; rfl
  | cons s t ih =>
      intro hnd m
      have hmc : (s :: t).map Slide.id = s.id :: t.map Slide.id := rfl
      rw [hmc] at hnd
      have hhead := (List.nodup_cons.mp hnd).1
      have htail := (List.nodup_cons.mp hnd).2
      rw [List.foldl_cons]
      by_cases hs : s.id = i
      · have hnot : ∀ x ∈ t, x.id ≠ i := by
          intro x hx hxc
          exact hhead (by rw [hs, ← hxc]; exact List.mem_map_of_mem Slide.id hx)
        rw [insFold_get_untouched i t (dictInsert m s.id s) hnot, hs,
          dictGet_insert_self m i s, List.find?_cons_of_pos _ (by simp [hs])]
      · rw [ih htail (dictInsert m s.id s),
          List.find?_cons_of_neg _ (by simp [hs])]
        cases t.find? (fun x => x.id = i) with
        | some x => rfl
        | none => exact dictGet_insert_ne m s.id i s (Ne.symm hs)

theorem find?_self_of_nodup :
    ∀ (slides : List Slide), (slides.map Slide.id).Nodup → ∀ s ∈ slides,
    slides.find? (fun x => x.id = s.id) = some s := by
  intro slides
  induction slides with
  | nil => intro _ s hs; simp at hs
  | cons a t ih =>
      intro hnd s hs
      have hmc : (a :: t).map Slide.id = a.id :: t.map Slide.id := rfl
      rw [hmc] at hnd
      have hhead := (List.nodup_cons.mp hnd).1
      have htail := (List.nodup_cons.mp hnd).2
      by_cases ha : a.id = s.id
      · have hsa : s = a := by
          rcases List.mem_cons.mp hs with h1 | h1
          · exact h1
          · exact absurd (by rw [ha]; exact List.mem_map_of_mem Slide.id h1) hhead
        subst hsa
        exact List.find?_cons_of_pos _ (by simp)
      · have hst : s ∈ t := by
          rcases List.mem_cons.mp hs with h1 | h1
          · exact absurd (by rw [h1]) ha
          · exact h1
        rw [List.find?_cons_of_neg _ (by simp [ha])]
        exact ih htail s hst

theorem sync_refresh_stable (im : String) (mc : Frac) (st : StudioStateM) :
    sync_session_from_slides (refresh_quality im mc
      (sync_session_from_slides (refresh_quality im mc st))) =
    sync_session_from_slides (refresh_quality im mc st) := by
  rfl

/-! Visual auto-fix idempotence. -/

def scoreIndep (score : Slide → Media → Frac) : Prop :=
  ∀ (s : Slide) (v : Option (List Visual)) (m : Media),
    score { s with visuals := v } m = score s m

theorem to_slide_visual_vis (s : Slide) (v : Option (List Visual)) (m : Media) (c : Frac) :
    to_slide_visual { s with visuals := v } m c = to_slide_visual s m c := rfl

theorem chooseLoop_vis (s : Slide) (v : Option (List Visual)) (mc : Frac) (mi : Int) :
    ∀ (L : List (Frac × Media)) (ch : List Visual),
    chooseLoop { s with visuals := v } mc mi L ch = chooseLoop s mc mi L ch := by
  intro L
  induction L with
  | nil => intro ch; rfl
  | cons p rest ih =>
      intro ch
      obtain ⟨sc, m⟩ := p
      simp only [chooseLoop, to_slide_visual_vis]
      by_cases hsc : sc < mc
      · simp only [if_pos hsc]; exact ih ch
      · simp only [if_neg hsc]
        by_cases hlen : mi ≤ (((ch ++ [to_slide_visual s m sc]).length : Nat) : Int)
        · simp only [if_pos hlen]
        · simp only [if_neg hlen]; exact ih _

theorem attachOne_vis (score : Slide → Media → Frac) (hscore : scoreIndep score)
    (cat : List Media) (nm : String) (mi : Int) (mc : Frac) (s : Slide)
    (v : Option (List Visual)) :
    attachOne score cat nm mi mc { s with visuals := v } = attachOne score cat nm mi mc s := by
  unfold attachOne
  simp only [show ∀ m : Media, score { s with visuals := v } m = score s m from
      fun m => hscore s v m,
    show is_visual_eligible_slide { s with visuals := v } = is_visual_eligible_slide s from rfl,
    chooseLoop_vis s v, to_slide_visual_vis s v]

theorem attachOne_shape (score : Slide → Media → Frac) (cat : List Media)
    (nm : String) (mi : Int) (mc : Frac) (s : Slide) :
    ∃ X, attachOne score cat nm mi mc s = { s with visuals := some X } := by
  unfold attachOne
  by_cases h : is_visual_eligible_slide s
  · rw [if_neg (by simpa using h)]
    exact ⟨_, rfl⟩
  · rw [if_pos (by simpa using h)]
    exact ⟨_, rfl⟩

theorem attachOne_idem (score : Slide → Media → Frac) (hscore : scoreIndep score)
    (cat : List Media) (nm : String) (mi : Int) (mc : Frac) (s : Slide) :
    attachOne score cat nm mi mc (attachOne score cat nm mi mc s) =
      attachOne score cat nm mi mc s := by
  obtain ⟨X, hX⟩ := attachOne_shape score cat nm mi mc s
  rw [hX, attachOne_vis score hscore cat nm mi mc s (some X), hX]

theorem f_attachOne (score : Slide → Media → Frac) (cat : List Media)
    (nm : String) (mi : Int) (mc : Frac) (x : Slide) :
    ({ attachOne score cat nm mi mc x with
        visuals := some (attachOne score cat nm mi mc x).visualsD } : Slide) =
      attachOne score cat nm mi mc x := by
  obtain ⟨X, hX⟩ := attachOne_shape score cat nm mi mc x
  rw [hX]
  rfl

theorem save_session_idem (st : StudioStateM) (payload : SessionPatch) :
    studio_save_session (studio_save_session st payload) payload =
      studio_save_session st payload := by
  rcases payload with ⟨a, b, c, d, e, f, g⟩
  cases a <;> cases b <;> cases c <;> cases d <;> cases e <;> cases f <;> cases g <;> rfl

/-- C7, as stated by the spec: every state-mutating Studio operation
    (`update_slides`, `save_session`, `auto_fix_visuals`) is idempotent
    given the same input. -/
def claimC7Statement : Prop :=
  ∀ (root : List String) (image_mode : String) (min_conf : Frac) (st : StudioStateM)
    (ps : List SlidePatch) (payload : SessionPatch) (score : Slide → Media → Frac)
    (N : Int) (ids : Option (List String)),
    update_slides root image_mode min_conf (update_slides root image_mode min_conf st ps) ps
        = update_slides root image_mode min_conf st ps
    ∧ studio_save_session (studio_save_session st payload) payload
        = studio_save_session st payload
    ∧ auto_fix_visuals score image_mode N min_conf
          (auto_fix_visuals score image_mode N min_conf st ids) ids
        = auto_fix_visuals score image_mode N min_conf st ids

def c7CSlide : Slide :=
  { id := "a", type := "content", title := "T", evidence_refs := some ["E"] }

def c7CSt : StudioStateM :=
  { slides := [c7CSlide], media := [], session := default_session
    quality := emptyQReport, sessionFile := none }

def c7CPatch : SlidePatch :=
  { id := some "a"
    claims := some [{ text := "t", evidence_refs := none, confidence := none }]
    evidence_refs := some ["F"] }

/-- C7 (counterexample): `update_slides` is not idempotent.  A patch
    whose claims omit `evidence_refs` and which also updates the slide's
    `evidence_refs` yields different claim refs on the first and second
    application, because `_sanitize_claims` reads the slide's current
    evidence refs before the `evidence_refs` key is processed. -/
theorem c7_counterexample : ¬ claimC7Statement := by
  intro h
  have := (h [] "auto" (fq 72 100) c7CSt [c7CPatch] {} (fun _ _ => 0) 1 none).1
  exact absurd this (by decide)

def c7WPatch : SlidePatch :=
  { id := some "a"
    title := some "New"
    claims := some [{ text := "t", evidence_refs := some ["doc.title"], confidence := none }] }

def c7WScore : Slide → Media → Frac := fun _ _ => 0

/-- The patches of the list addressed to slide id `i`, in posting order. -/
def patchesFor (ps : List SlidePatch) (i : String) : List SlidePatch :=
  ps.filter (fun p => p.id = some i)

/-- Sequential application of a patch list to one slide. -/
def applyAll (root : List String) (qs : List SlidePatch) (s : Slide) : Slide :=
  qs.foldl (applySlidePatch root) s

/-- Entry `i` of the patch fold is the in-order application of every patch
    addressed to `i` (no distinctness needed). -/
theorem patchFold_get_general (root : List String) (i : String) :
    ∀ (ps : List SlidePatch) (m : List (String × Slide)),
    dictGet (ps.foldl (patchStep root) m) i =
      (dictGet m i).map (applyAll root (patchesFor ps i)) := by
  intro ps
  induction ps with
  | nil =>
      intro m
      show dictGet m i = (dictGet m i).map (applyAll root (patchesFor [] i))
      cases dictGet m i <;> rfl
  | cons p t ih =>
      intro m
      rw [List.foldl_cons]
      match hid : p.id with
      | none =>
          have hstep : patchStep root m p = m := by simp [patchStep, hid]
          have hfil : patchesFor (p :: t) i = patchesFor t i := by
            simp [patchesFor, List.filter_cons, hid]
          rw [hstep, ih m, hfil]
      | some j =>
          by_cases hj : j = i
          · subst hj
            have hfil : patchesFor (p :: t) j = p :: patchesFor t j := by
              simp [patchesFor, List.filter_cons, hid]
            rw [hfil]
            cases hm : dictGet m j with
            | none =>
                have hstep : patchStep root m p = m := by simp [patchStep, hid, hm]
                rw [hstep, ih m, hm]
                rfl
            | some cur =>
                have hstep : patchStep root m p =
                    dictInsert m j (applySlidePatch root cur p) := by
                  simp [patchStep, hid, hm]
                rw [hstep, ih (dictInsert m j (applySlidePatch root cur p)),
                  dictGet_insert_self]
                rfl
          · have hstepget : dictGet (patchStep root m p) i = dictGet m i := by
              cases hm : dictGet m j with
              | none => simp [patchStep, hid, hm]
              | some cur =>
                  simp only [patchStep, hid, hm]
                  exact dictGet_insert_ne m j i _ (Ne.symm hj)
            have hfil : patchesFor (p :: t) i = patchesFor t i := by
              simp [patchesFor, List.filter_cons, hid, hj]
            rw [ih (patchStep root m p), hstepget, hfil]

/-! Frame lemmas: `applyAll` only changes fields some patch writes. -/

theorem applySlidePatch_type (root : List String) (s : Slide) (p : SlidePatch) :
    (applySlidePatch root s p).type = s.type := by
  rw [applySlidePatch_eq]; rfl

theorem applyAll_proj {β : Type} (root : List String) (f : Slide → β)
    (hstep : ∀ (x : Slide) (p : SlidePatch), f (applySlidePatch root x p) = f x) :
    ∀ (qs : List SlidePatch) (x : Slide), f (applyAll root qs x) = f x := by
  intro qs
  induction qs with
  | nil => intro x; rfl
  | cons p t ih =>
      intro x
      show f (applyAll root t (applySlidePatch root x p)) = f x
      rw [ih (applySlidePatch root x p), hstep x p]

theorem applyAll_frame {β γ : Type} (root : List String) (f : Slide → β)
    (g : SlidePatch → Option γ)
    (hstep : ∀ (x : Slide) (p : SlidePatch), g p = none →
      f (applySlidePatch root x p) = f x) :
    ∀ (qs : List SlidePatch) (x : Slide), (∀ p ∈ qs, g p = none) →
    f (applyAll root qs x) = f x := by
  intro qs
  induction qs with
  | nil => intro x _; rfl
  | cons p t ih =>
      intro x h
      show f (applyAll root t (applySlidePatch root x p)) = f x
      rw [ih (applySlidePatch root x p) (fun q hq => h q (by simp [hq])),
        hstep x p (h p (by simp))]

theorem applyAll_id (root : List String) (qs : List SlidePatch) (x : Slide) :
    (applyAll root qs x).id = x.id :=
  applyAll_proj root Slide.id (fun x p => applySlidePatch_id root x p) qs x

theorem slide_fields_ext (x y : Slide) (h1 : x.id = y.id) (h2 : x.type = y.type)
    (h3 : x.title = y.title) (h4 : x.subtitle = y.subtitle) (h5 : x.content = y.content)
    (h6 : x.list_items = y.list_items) (h7 : x.evidence_refs = y.evidence_refs)
    (h8 : x.claims = y.claims) (h9 : x.notes = y.notes) (h10 : x.visuals = y.visuals) :
    x = y := by
  cases x
  cases y
  congr 1

/-- Under explicit claim refs, every patched field's value is determined
    by the patch alone, so `applyAll` agrees on any two slides that agree
    on the fields no patch writes. -/
theorem applyAll_congr (root : List String) :
    ∀ (qs : List SlidePatch) (x y : Slide),
    (∀ p ∈ qs, patchClaimsExplicit p = true) →
    x.id = y.id → x.type = y.type →
    ((∀ p ∈ qs, p.title = none) → x.title = y.title) →
    ((∀ p ∈ qs, p.subtitle = none) → x.subtitle = y.subtitle) →
    ((∀ p ∈ qs, p.content = none) → x.content = y.content) →
    ((∀ p ∈ qs, p.list_items = none) → x.list_items = y.list_items) →
    ((∀ p ∈ qs, p.evidence_refs = none) → x.evidence_refs = y.evidence_refs) →
    ((∀ p ∈ qs, p.claims = none) → x.claims = y.claims) →
    ((∀ p ∈ qs, p.notes = none) → x.notes = y.notes) →
    ((∀ p ∈ qs, p.visuals = none) → x.visuals = y.visuals) →
    applyAll root qs x = applyAll root qs y := by
  intro qs
  induction qs with
  | nil =>
      intro x y _ h1 h2 h3 h4 h5 h6 h7 h8 h9 h10
      exact slide_fields_ext x y h1 h2 (h3 (by simp)) (h4 (by simp)) (h5 (by simp))
        (h6 (by simp)) (h7 (by simp)) (h8 (by simp)) (h9 (by simp)) (h10 (by simp))
  | cons p t ih =>
      intro x y hp h1 h2 h3 h4 h5 h6 h7 h8 h9 h10
      show applyAll root t (applySlidePatch root x p) =
        applyAll root t (applySlidePatch root y p)
      refine ih (applySlidePatch root x p) (applySlidePatch root y p)
        (fun q hq => hp q (by simp [hq])) ?_ ?_ ?_ ?_ ?_ ?_ ?_ ?_ ?_ ?_
      · rw [applySlidePatch_id, applySlidePatch_id]; exact h1
      · rw [applySlidePatch_type, applySlidePatch_type]; exact h2
      · intro ht
        rw [applySlidePatch_eq, applySlidePatch_eq]
        simp only [patchedSlide]
        cases hpt : p.title with
        | some v => rfl
        | none =>
            exact h3 (fun q hq => by
              rcases List.mem_cons.mp hq with h0 | h0
              · rw [h0]; exact hpt
              · exact ht q h0)
      · intro ht
        rw [applySlidePatch_eq, applySlidePatch_eq]
        simp only [patchedSlide]
        cases hpt : p.subtitle with
        | some v => rfl
        | none =>
            exact h4 (fun q hq => by
              rcases List.mem_cons.mp hq with h0 | h0
              · rw [h0]; exact hpt
              · exact ht q h0)
      · intro ht
        rw [applySlidePatch_eq, applySlidePatch_eq]
        simp only [patchedSlide]
        cases hpt : p.content with
        | some v => rfl
        | none =>
            exact h5 (fun q hq => by
              rcases List.mem_cons.mp hq with h0 | h0
              · rw [h0]; exact hpt
              · exact ht q h0)
      · intro ht
        rw [applySlidePatch_eq, applySlidePatch_eq]
        simp only [patchedSlide]
        cases hpt : p.list_items with
        | some v => rfl
        | none =>
            exact h6 (fun q hq => by
              rcases List.mem_cons.mp hq with h0 | h0
              · rw [h0]; exact hpt
              · exact ht q h0)
      · intro ht
        rw [applySlidePatch_eq, applySlidePatch_eq]
        simp only [patchedSlide]
        cases hpt : p.evidence_refs with
        | some v => rfl
        | none =>
            exact h7 (fun q hq => by
              rcases List.mem_cons.mp hq with h0 | h0
              · rw [h0]; exact hpt
              · exact ht q h0)
      · intro ht
        rw [applySlidePatch_eq, applySlidePatch_eq]
        simp only [patchedSlide]
        cases hpc : p.claims with
        | some c =>
            have hexp := hp p (by simp)
            simp only [patchClaimsExplicit, hpc] at hexp
            exact congrArg some
              (sanitize_claims_explicit c (List.all_eq_true.mp hexp) _ _)
        | none =>
            exact h8 (fun q hq => by
              rcases List.mem_cons.mp hq with h0 | h0
              · rw [h0]; exact hpc
              · exact ht q h0)
      · intro ht
        rw [applySlidePatch_eq, applySlidePatch_eq]
        simp only [patchedSlide]
        cases hpt : p.notes with
        | some v => rfl
        | none =>
            exact h9 (fun q hq => by
              rcases List.mem_cons.mp hq with h0 | h0
              · rw [h0]; exact hpt
              · exact ht q h0)
      · intro ht
        rw [applySlidePatch_eq, applySlidePatch_eq]
        simp only [patchedSlide]
        cases hpt : p.visuals with
        | some v => rfl
        | none =>
            exact h10 (fun q hq => by
              rcases List.mem_cons.mp hq with h0 | h0
              · rw [h0]; exact hpt
              · exact ht q h0)

/-- Masked-constant idempotence: a patch list in which every posted claim
    carries explicit refs is idempotent on every slide, duplicates and
    all. -/
theorem applyAll_idem (root : List String) (qs : List SlidePatch) (x : Slide)
    (hp : ∀ q ∈ qs, patchClaimsExplicit q = true) :
    applyAll root qs (applyAll root qs x) = applyAll root qs x := by
  refine applyAll_congr root qs (applyAll root qs x) x hp
    (applyAll_id root qs x)
    (applyAll_proj root Slide.type (fun z p => applySlidePatch_type root z p) qs x)
    ?_ ?_ ?_ ?_ ?_ ?_ ?_ ?_
  · exact fun h => applyAll_frame root Slide.title SlidePatch.title
      (fun z p hnone => by rw [applySlidePatch_eq]; simp [patchedSlide, hnone]) qs x h
  · exact fun h => applyAll_frame root Slide.subtitle SlidePatch.subtitle
      (fun z p hnone => by rw [applySlidePatch_eq]; simp [patchedSlide, hnone]) qs x h
  · exact fun h => applyAll_frame root Slide.content SlidePatch.content
      (fun z p hnone => by rw [applySlidePatch_eq]; simp [patchedSlide, hnone]) qs x h
  · exact fun h => applyAll_frame root Slide.list_items SlidePatch.list_items
      (fun z p hnone => by rw [applySlidePatch_eq]; simp [patchedSlide, hnone]) qs x h
  · exact fun h => applyAll_frame root Slide.evidence_refs SlidePatch.evidence_refs
      (fun z p hnone => by rw [applySlidePatch_eq]; simp [patchedSlide, hnone]) qs x h
  · exact fun h => applyAll_frame root Slide.claims (fun p => p.claims)
      (fun z p hnone => by rw [applySlidePatch_eq]; simp [patchedSlide, hnone]) qs x h
  · exact fun h => applyAll_frame root Slide.notes SlidePatch.notes
      (fun z p hnone => by rw [applySlidePatch_eq]; simp [patchedSlide, hnone]) qs x h
  · exact fun h => applyAll_frame root Slide.visuals SlidePatch.visuals
      (fun z p hnone => by rw [applySlidePatch_eq]; simp [patchedSlide, hnone]) qs x h

theorem updateSlidesOrdered_apply (root : List String) (ps : List SlidePatch)
    (slides : List Slide) (h1 : (slides.map Slide.id).Nodup) :
    updateSlidesOrdered root ps slides =
      slides.map (fun s => applyAll root (patchesFor ps s.id) s) := by
  unfold updateSlidesOrdered
  refine List.map_congr_left (fun s hs => ?_)
  rw [patchFold_get_general root s.id ps (slideDictOf slides)]
  have hbase : dictGet (slideDictOf slides) s.id = some s := by
    unfold slideDictOf
    rw [insFold_get s.id slides h1 [], find?_self_of_nodup slides h1 s hs]
  rw [hbase]
  rfl

theorem updateSlidesOrdered_idem (root : List String) (ps : List SlidePatch)
    (slides : List Slide) (h1 : (slides.map Slide.id).Nodup)
    (h3 : ps.all patchClaimsExplicit = true) :
    updateSlidesOrdered root ps (updateSlidesOrdered root ps slides) =
      updateSlidesOrdered root ps slides := by
  have e1 := updateSlidesOrdered_apply root ps slides h1
  have h1' : ((updateSlidesOrdered root ps slides).map Slide.id).Nodup := by
    rw [e1, List.map_map]
    have hcomp : (Slide.id ∘ fun s => applyAll root (patchesFor ps s.id) s) = Slide.id :=
      funext fun s => applyAll_id root (patchesFor ps s.id) s
    rw [hcomp]
    exact h1
  rw [updateSlidesOrdered_apply root ps _ h1', e1, List.map_map]
  refine List.map_congr_left (fun s _ => ?_)
  show applyAll root (patchesFor ps (applyAll root (patchesFor ps s.id) s).id)
      (applyAll root (patchesFor ps s.id) s) = applyAll root (patchesFor ps s.id) s
  rw [applyAll_id root (patchesFor ps s.id) s]
  exact applyAll_idem root (patchesFor ps s.id) s
    (fun q hq => List.all_eq_true.mp h3 q (List.mem_of_mem_filter hq))

theorem update_slides_idem (root : List String) (im : String) (mc : Frac)
    (st : StudioStateM) (ps : List SlidePatch)
    (h1 : (st.slides.map Slide.id).Nodup)
    (h3 : ps.all patchClaimsExplicit = true) :
    update_slides root im mc (update_slides root im mc st ps) ps =
      update_slides root im mc st ps := by
  show sync_session_from_slides (refresh_quality im mc
      { update_slides root im mc st ps with
        slides := updateSlidesOrdered root ps (update_slides root im mc st ps).slides }) = _
  have hsl : (update_slides root im mc st ps).slides =
      updateSlidesOrdered root ps st.slides := rfl
  rw [hsl, updateSlidesOrdered_idem root ps st.slides h1 h3]
  exact sync_refresh_stable im mc
    { st with slides := updateSlidesOrdered root ps st.slides }

/-! General auto-fix idempotence (any slide selection). -/

theorem find?_map_of_id_pres (φ : Slide → Slide) (hφ : ∀ s, (φ s).id = s.id) (i : String) :
    ∀ l : List Slide, (l.map φ).find? (fun u => u.id = i) = (l.find? (fun u => u.id = i)).map φ := by
  intro l
  induction l with
  | nil => rfl
  | cons a t ih =>
      by_cases ha : a.id = i
      · rw [List.map_cons, List.find?_cons_of_pos _ (by simp [hφ, ha]),
          List.find?_cons_of_pos _ (by simp [ha])]
        rfl
      · rw [List.map_cons, List.find?_cons_of_neg _ (by simp [hφ, ha]),
          List.find?_cons_of_neg _ (by simp [ha])]
        exact ih

/-- Whatever branch `attach_visuals_to_slides` takes, its slide list is a
    per-slide map by an id-preserving, idempotent transformation (given a
    visuals-independent scorer). -/
theorem attach_eq_map (score : Slide → Media → Frac) (hscore : scoreIndep score)
    (cat : List Media) (mode : String) (N : Int) (mc : Frac) :
    ∃ φ : Slide → Slide, (∀ s, (φ s).id = s.id) ∧ (∀ s, φ (φ s) = φ s) ∧
      ∀ slides : List Slide,
        (attach_visuals_to_slides score slides cat mode N mc).1 = slides.map φ := by
  by_cases h1 : normMode mode = "off" ∨ max 0 (min (pyIntOr1 N) 2) = 0
  · refine ⟨fun s => { s with visuals := some s.visualsD }, fun s => rfl, fun s => rfl,
      fun slides => ?_⟩
    simp only [attach_visuals_to_slides, if_pos h1]
  · by_cases h2 : cat = []
    · refine ⟨fun s => { s with visuals := some [] }, fun s => rfl, fun s => rfl,
        fun slides => ?_⟩
      simp only [attach_visuals_to_slides, if_neg h1, if_pos h2, List.map_map]
      rfl
    · refine ⟨fun s => attachOne score cat (normMode mode) (max 0 (min (pyIntOr1 N) 2)) mc
          { s with visuals := some s.visualsD }, fun s => ?_, fun s => ?_, fun slides => ?_⟩
      · show (attachOne score cat (normMode mode) (max 0 (min (pyIntOr1 N) 2)) mc
            { s with visuals := some s.visualsD }).id = s.id
        obtain ⟨X, hX⟩ := attachOne_shape score cat (normMode mode)
          (max 0 (min (pyIntOr1 N) 2)) mc { s with visuals := some s.visualsD }
        rw [hX]
      · show attachOne score cat (normMode mode) (max 0 (min (pyIntOr1 N) 2)) mc
            { attachOne score cat (normMode mode) (max 0 (min (pyIntOr1 N) 2)) mc
                { s with visuals := some s.visualsD } with
              visuals := some (attachOne score cat (normMode mode)
                (max 0 (min (pyIntOr1 N) 2)) mc
                { s with visuals := some s.visualsD }).visualsD }
          = attachOne score cat (normMode mode) (max 0 (min (pyIntOr1 N) 2)) mc
              { s with visuals := some s.visualsD }
        rw [f_attachOne score cat (normMode mode) (max 0 (min (pyIntOr1 N) 2)) mc
          { s with visuals := some s.visualsD }]
        exact attachOne_idem score hscore cat (normMode mode)
          (max 0 (min (pyIntOr1 N) 2)) mc { s with visuals := some s.visualsD }
      · simp only [attach_visuals_to_slides, if_neg h1, if_neg h2, List.map_map]
        rfl

theorem autoFixSlides_idem (score : Slide → Media → Frac) (hscore : scoreIndep score)
    (im : String) (N : Int) (mc : Frac) (slides : List Slide) (media : List Media)
    (ids : Option (List String)) :
    autoFixSlides score im N mc (autoFixSlides score im N mc slides media ids) media ids =
      autoFixSlides score im N mc slides media ids := by
  obtain ⟨φ, hφid, hφidem, hU⟩ := attach_eq_map score hscore media im N mc
  unfold autoFixSlides
  by_cases hsel : ids.getD [] = []
  · rw [if_neg (by simp [hsel]), if_neg (by simp [hsel])]
    simp only [hU, List.map_map]
    exact List.map_congr_left (fun s _ => hφidem s)
  · rw [if_pos hsel, if_pos hsel]
    simp only [hU]
    have hg1 : ∀ z : Slide,
        ((if z.id ∈ ids.getD [] then
            (((slides.map φ).find? (fun u => u.id = z.id)).getD z) else z) : Slide).id
          = z.id := by
      intro z
      by_cases hz : z.id ∈ ids.getD []
      · rw [if_pos hz]
        cases hfz : (slides.map φ).find? (fun u => u.id = z.id) with
        | none => rfl
        | some u => simpa using List.find?_some hfz
      · rw [if_neg hz]
    rw [List.map_map]
    refine List.map_congr_left (fun s hs => ?_)
    show (fun t => if t.id ∈ ids.getD [] then
        ((((slides.map (fun z => if z.id ∈ ids.getD [] then
            (((slides.map φ).find? (fun u => u.id = z.id)).getD z) else z)).map φ).find?
          (fun u => u.id = t.id)).getD t) else t)
      ((fun z => if z.id ∈ ids.getD [] then
          (((slides.map φ).find? (fun u => u.id = z.id)).getD z) else z) s) = _
    by_cases hmem : s.id ∈ ids.getD []
    · simp only [if_pos hmem]
      rw [find?_map_of_id_pres φ hφid s.id slides]
      cases hf : slides.find? (fun u => u.id = s.id) with
      | none =>
          exfalso
          have := List.find?_eq_none.mp hf s hs
          simp at this
      | some x₀ =>
          have hx₀ : x₀.id = s.id := by simpa using List.find?_some hf
          simp only [Option.map_some', Option.getD_some]
          simp only [hφid, hx₀, if_pos hmem]
          rw [find?_map_of_id_pres φ hφid s.id, find?_map_of_id_pres _ hg1 s.id, hf]
          simp only [Option.map_some', Option.getD_some]
          simp only [hx₀, if_pos hmem]
          rw [find?_map_of_id_pres φ hφid s.id, hf]
          simp only [Option.map_some', Option.getD_some]
          exact hφidem x₀
    · simp only [if_neg hmem]

theorem auto_fix_visuals_idem (score : Slide → Media → Frac) (hscore : scoreIndep score)
    (im : String) (N : Int) (mc : Frac) (st : StudioStateM) (ids : Option (List String)) :
    auto_fix_visuals score im N mc (auto_fix_visuals score im N mc st ids) ids =
      auto_fix_visuals score im N mc st ids := by
  show sync_session_from_slides (refresh_quality im mc
      { auto_fix_visuals score im N mc st ids with
        slides := autoFixSlides score im N mc
          (auto_fix_visuals score im N mc st ids).slides
          (auto_fix_visuals score im N mc st ids).media ids }) = _
  have hsl : (auto_fix_visuals score im N mc st ids).slides =
      autoFixSlides score im N mc st.slides st.media ids := rfl
  have hmed : (auto_fix_visuals score im N mc st ids).media = st.media := rfl
  rw [hsl, hmed, autoFixSlides_idem score hscore im N mc st.slides st.media ids]
  exact sync_refresh_stable im mc
    { st with slides := autoFixSlides score im N mc st.slides st.media ids }

/-- C7 (amended): the studio mutation endpoints are idempotent under the
    stated side conditions.  `save_session` is idempotent unconditionally.
    `update_slides` is idempotent whenever the deck's slide ids are distinct
    and every posted claim carries explicit `evidence_refs` — the posted
    patch list may address the same slide id repeatedly.  `auto_fix_visuals`
    is idempotent for every `slide_ids` selection whenever the relevance
    scorer ignores a slide's `visuals` field (true of the source's
    `_score_media_for_slide`). -/
theorem c7_idempotent_mutations (root : List String) (image_mode : String) (min_conf : Frac)
    (st : StudioStateM) (ps : List SlidePatch) (payload : SessionPatch)
    (score : Slide → Media → Frac) (N : Int) (ids : Option (List String))
    (h1 : (st.slides.map Slide.id).Nodup)
    (h3 : ps.all patchClaimsExplicit = true)
    (hscore : scoreIndep score) :
    update_slides root image_mode min_conf (update_slides root image_mode min_conf st ps) ps
        = update_slides root image_mode min_conf st ps
    ∧ studio_save_session (studio_save_session st payload) payload
        = studio_save_session st payload
    ∧ auto_fix_visuals score image_mode N min_conf
          (auto_fix_visuals score image_mode N min_conf st ids) ids
        = auto_fix_visuals score image_mode N min_conf st ids :=
  ⟨update_slides_idem root image_mode min_conf st ps h1 h3,
   save_session_idem st payload,
   auto_fix_visuals_idem score hscore image_mode N min_conf st ids⟩

def c7WPatch2 : SlidePatch :=
  { id := some "a", content := some "Updated body" }

/-- Witness for C7: the amended theorem applied at a concrete state, with a
    patch list addressing slide "a" twice and an explicit slide selection. -/
theorem c7_idempotent_mutations_witness :
    ((c7CSt.slides.map Slide.id).Nodup
        ∧ [c7WPatch, c7WPatch2].all patchClaimsExplicit = true
        ∧ scoreIndep c7WScore)
      ∧ (update_slides [] "auto" (fq 72 100)
            (update_slides [] "auto" (fq 72 100) c7CSt [c7WPatch, c7WPatch2])
            [c7WPatch, c7WPatch2]
          = update_slides [] "auto" (fq 72 100) c7CSt [c7WPatch, c7WPatch2]
        ∧ studio_save_session (studio_save_session c7CSt {}) {} = studio_save_session c7CSt {}
        ∧ auto_fix_visuals c7WScore "auto" 1 (fq 72 100)
              (auto_fix_visuals c7WScore "auto" 1 (fq 72 100) c7CSt (some ["a"])) (some ["a"])
            = auto_fix_visuals c7WScore "auto" 1 (fq 72 100) c7CSt (some ["a"])) :=
  ⟨⟨by decide, by decide, fun _ _ _ => rfl⟩,
   c7_idempotent_mutations [] "auto" (fq 72 100) c7CSt [c7WPatch, c7WPatch2] {}
     c7WScore 1 (some ["a"]) (by decide) (by decide) (fun _ _ _ => rfl)⟩

/-! ## C5: analyzer file and line counts -/

mutual
/-- Contribution of one directory entry to the spec's file count (ignored
    directories contribute nothing). -/
def FsTree.entryFileCount : FsTree → Nat
  | .file _ _ _ => 1
  | .dir n _ es => if should_ignore_dir n then 0 else FsTree.entryFileCountList es

def FsTree.entryFileCountList : List FsTree → Nat
  | [] => 0
  | t :: ts => FsTree.entryFileCount t + FsTree.entryFileCountList ts
end

mutual
/-- Contribution of one directory entry to the spec's line total. -/
def FsTree.entryLineSum : FsTree → Nat
  | .file _ _ d => (pySplitlines d.text).length
  | .dir n _ es => if should_ignore_dir n then 0 else FsTree.entryLineSumList es

def FsTree.entryLineSumList : List FsTree → Nat
  | [] => 0
  | t :: ts => FsTree.entryLineSum t + FsTree.entryLineSumList ts
end

mutual
/-- Every file in the tree bears a code-language extension. -/
def FsTree.recognizedOnly : FsTree → Bool
  | .file n _ _ => pyLower (pySuffix n) ∈ CODE_LANGUAGE_EXTENSIONS.map Prod.fst
  | .dir _ _ es => FsTree.recognizedOnlyList es

def FsTree.recognizedOnlyList : List FsTree → Bool
  | [] => true
  | t :: ts => FsTree.recognizedOnly t && FsTree.recognizedOnlyList ts
end

mutual
/-- Nothing is a symlink, and every file bears a code-language extension,
    is readable, fits the size limit and contains no NUL byte. -/
def FsTree.cleanFor (maxb : Nat) : FsTree → Bool
  | .file n s d => ¬ s && d.readable && decide (d.size ≤ maxb) && ¬ d.hasNul &&
      decide (pyLower (pySuffix n) ∈ CODE_LANGUAGE_EXTENSIONS.map Prod.fst)
  | .dir _ s es => ¬ s && FsTree.cleanListFor maxb es

def FsTree.cleanListFor (maxb : Nat) : List FsTree → Bool
  | [] => true
  | t :: ts => FsTree.cleanFor maxb t && FsTree.cleanListFor maxb ts
end

theorem charListLe_total : ∀ as bs : List Char,
    charListLe as bs = true ∨ charListLe bs as = true := by
  intro as
  induction as with
  | nil => intro bs; left; rfl
  | cons a at' ih =>
      intro bs
      cases bs with
      | nil => right; rfl
      | cons b bt =>
          rcases lt_trichotomy a b with h | h | h
          · left; rw [charListLe, if_pos h]
          · subst h
            rcases ih bt with h2 | h2
            · left
              rw [charListLe, if_neg (lt_irrefl a), if_neg (lt_irrefl a)]
              exact h2
            · right
              rw [charListLe, if_neg (lt_irrefl a), if_neg (lt_irrefl a)]
              exact h2
          · right; rw [charListLe, if_pos h]

theorem charListLe_trans : ∀ as bs cs : List Char,
    charListLe as bs = true → charListLe bs cs = true → charListLe as cs = true := by
  intro as
  induction as with
  | nil => intro bs cs _ _; rfl
  | cons a at' ih =>
      intro bs cs h1 h2
      cases bs with
      | nil => simp [charListLe] at h1
      | cons b bt =>
          cases cs with
          | nil => simp [charListLe] at h2
          | cons c ct =>
              rw [charListLe] at h1 h2 ⊢
              rcases lt_trichotomy a b with hab | hab | hab
              · rcases lt_trichotomy b c with hbc | hbc | hbc
                · rw [if_pos (lt_trans hab hbc)]
                · subst hbc; rw [if_pos hab]
                · rw [if_neg (lt_asymm hbc), if_pos hbc] at h2
                  exact absurd h2 (by simp)
              · subst hab
                rw [if_neg (lt_irrefl a), if_neg (lt_irrefl a)] at h1
                rcases lt_trichotomy a c with hac | hac | hac
                · rw [if_pos hac]
                · subst hac
                  rw [if_neg (lt_irrefl a), if_neg (lt_irrefl a)] at h2 ⊢
                  exact ih bt ct h1 h2
                · rw [if_neg (lt_asymm hac), if_pos hac] at h2
                  exact absurd h2 (by simp)
              · rw [if_neg (lt_asymm hab), if_pos hab] at h1
                exact absurd h1 (by simp)

theorem charListLe_antisymm : ∀ as bs : List Char,
    charListLe as bs = true → charListLe bs as = true → as = bs := by
  intro as
  induction as with
  | nil =>
      intro bs _ h2
      cases bs with
      | nil => rfl
      | cons b bt => simp [charListLe] at h2
  | cons a at' ih =>
      intro bs h1 h2
      cases bs with
      | nil => simp [charListLe] at h1
      | cons b bt =>
          rw [charListLe] at h1 h2
          rcases lt_trichotomy a b with hab | hab | hab
          · rw [if_neg (lt_asymm hab), if_pos hab] at h2
            exact absurd h2 (by simp)
          · subst hab
            rw [if_neg (lt_irrefl a), if_neg (lt_irrefl a)] at h1 h2
            rw [ih bt h1 h2]
          · rw [if_neg (lt_asymm hab), if_pos hab] at h1
            exact absurd h1 (by simp)

theorem strLeB_total (a b : String) : strLeB a b = true ∨ strLeB b a = true :=
  charListLe_total a.data b.data

theorem strLeB_trans (a b c : String) (h1 : strLeB a b = true) (h2 : strLeB b c = true) :
    strLeB a c = true := charListLe_trans a.data b.data c.data h1 h2

theorem strLeB_antisymm (a b : String) (h1 : strLeB a b = true) (h2 : strLeB b a = true) :
    a = b := by
  cases a with
  | mk da =>
      cases b with
      | mk db => exact congrArg String.mk (charListLe_antisymm da db h1 h2)

/-! Sortedness of `pySorted`. -/

theorem orderedInsert_sorted {α : Type} (le : α → α → Bool)
    (htot : ∀ a b, le a b = true ∨ le b a = true)
    (htrans : ∀ a b c, le a b = true → le b c = true → le a c = true) (x : α) :
    ∀ l, List.Pairwise (fun a b => le a b = true) l →
    List.Pairwise (fun a b => le a b = true) (orderedInsert le x l) := by
  intro l
  induction l with
  | nil => intro _; simp [orderedInsert]
  | cons y ys ih =>
      intro h
      have hy := List.pairwise_cons.mp h
      rw [orderedInsert]
      by_cases hyx : le y x = true
      · rw [if_pos hyx]
        refine List.pairwise_cons.mpr ⟨?_, ih hy.2⟩
        intro z hz
        rcases List.mem_cons.mp ((orderedInsert_perm le x ys).mem_iff.mp hz) with hz1 | hz1
        · rw [hz1]; exact hyx
        · exact hy.1 z hz1
      · rw [if_neg hyx]
        have hxy : le x y = true := by
          rcases htot x y with h1 | h1
          · exact h1
          · exact absurd h1 hyx
        refine List.pairwise_cons.mpr ⟨?_, h⟩
        intro z hz
        rcases List.mem_cons.mp hz with hz1 | hz1
        · rw [hz1]; exact hxy
        · exact htrans x y z hxy (hy.1 z hz1)

theorem pySorted_sorted {α : Type} (le : α → α → Bool)
    (htot : ∀ a b, le a b = true ∨ le b a = true)
    (htrans : ∀ a b c, le a b = true → le b c = true → le a c = true) :
    ∀ (l acc : List α), List.Pairwise (fun a b => le a b = true) acc →
    List.Pairwise (fun a b => le a b = true)
      (l.foldl (fun acc x => orderedInsert le x acc) acc) := by
  intro l
  induction l with
  | nil => intro acc h; exact h
  | cons x xs ih =>
      intro acc h
      rw [List.foldl_cons]
      exact ih (orderedInsert le x acc) (orderedInsert_sorted le htot htrans x acc h)

theorem sorted_perm_eq {α : Type} (le : α → α → Bool) :
    ∀ (l₁ l₂ : List α),
    (∀ a ∈ l₁, ∀ b ∈ l₁, le a b = true → le b a = true → a = b) →
    l₁.Perm l₂ →
    List.Pairwise (fun a b => le a b = true) l₁ →
    List.Pairwise (fun a b => le a b = true) l₂ →
    l₁ = l₂ := by
  intro l₁
  induction l₁ with
  | nil => intro l₂ _ hp _ _; exact hp.nil_eq
  | cons a t₁ ih =>
      intro l₂ hanti hp hs₁ hs₂
      cases l₂ with
      | nil => exact absurd hp.symm (by simp)
      | cons b t₂ =>
          by_cases hab : a = b
          · subst hab
            have ht := hp.cons_inv
            rw [ih t₂ (fun x hx y hy => hanti x (by simp [hx]) y (by simp [hy]))
              ht (List.pairwise_cons.mp hs₁).2 (List.pairwise_cons.mp hs₂).2]
          · exfalso
            have hain : a ∈ b :: t₂ := hp.mem_iff.mp (by simp)
            have hbin : b ∈ a :: t₁ := hp.mem_iff.mpr (by simp)
            have hat₂ : a ∈ t₂ := by
              rcases List.mem_cons.mp hain with h1 | h1
              · exact absurd h1 hab
              · exact h1
            have hbt₁ : b ∈ t₁ := by
              rcases List.mem_cons.mp hbin with h1 | h1
              · exact absurd h1.symm hab
              · exact h1
            have h1 : le a b = true := (List.pairwise_cons.mp hs₁).1 b hbt₁
            have h2 : le b a = true := (List.pairwise_cons.mp hs₂).1 a hat₂
            exact hab (hanti a (by simp) b (by simp [hbt₁]) h1 h2)

theorem pySorted_eq_of_perm {α : Type} (le : α → α → Bool)
    (htot : ∀ a b, le a b = true ∨ le b a = true)
    (htrans : ∀ a b c, le a b = true → le b c = true → le a c = true)
    (l₁ l₂ : List α)
    (hanti : ∀ a ∈ l₁, ∀ b ∈ l₁, le a b = true → le b a = true → a = b)
    (hperm : l₁.Perm l₂) :
    pySorted le l₁ = pySorted le l₂ := by
  refine sorted_perm_eq le (pySorted le l₁) (pySorted le l₂) ?_ ?_ ?_ ?_
  · intro a ha b hb
    exact hanti a ((pySorted_perm le l₁).mem_iff.mp ha)
      b ((pySorted_perm le l₁).mem_iff.mp hb)
  · exact ((pySorted_perm le l₁).trans hperm).trans (pySorted_perm le l₂).symm
  · exact pySorted_sorted le htot htrans l₁ [] (by simp)
  · exact pySorted_sorted le htot htrans l₂ [] (by simp)

mutual
/-- Within every directory of the tree, the lowercased entry names are
    pairwise distinct (what `sorted(..., key=name.lower())` needs to be
    independent of the order the OS yields entries in). -/
def FsTree.namesDistinct : FsTree → Bool
  | .file _ _ _ => true
  | .dir _ _ es =>
      decide ((es.map (fun e => pyLower e.name)).Nodup) && FsTree.namesDistinctList es

def FsTree.namesDistinctList : List FsTree → Bool
  | [] => true
  | t :: ts => FsTree.namesDistinct t && FsTree.namesDistinctList ts
end

theorem namesDistinctList_mem :
    ∀ (es : List FsTree), FsTree.namesDistinctList es = true →
    ∀ t ∈ es, FsTree.namesDistinct t = true := by
  intro es
  induction es with
  | nil => intro _ t ht; simp at ht
  | cons a ts ih =>
      intro h t ht
      rw [FsTree.namesDistinctList, Bool.and_eq_true] at h
      rcases List.mem_cons.mp ht with h1 | h1
      · rw [h1]; exact h.1
      · exact ih h.2 t h1

theorem entryLe_total (a b : FsTree) : entryLe a b = true ∨ entryLe b a = true :=
  strLeB_total (pyLower a.name) (pyLower b.name)

theorem entryLe_trans (a b c : FsTree) (h1 : entryLe a b = true) (h2 : entryLe b c = true) :
    entryLe a c = true :=
  strLeB_trans (pyLower a.name) (pyLower b.name) (pyLower c.name) h1 h2

theorem iterFilesFuel_shuffle_indep (sh₁ sh₂ : Shuffle) :
    ∀ (f : Nat) (t : FsTree) (rel : List String), FsTree.namesDistinct t = true →
    iterFilesFuel sh₁ f rel t = iterFilesFuel sh₂ f rel t := by
  intro f
  induction f with
  | zero =>
      intro t rel _
      cases t <;> rfl
  | succ f ih =>
      intro t rel hnames
      cases t with
      | file n s d => rfl
      | dir n s es =>
          rw [FsTree.namesDistinct, Bool.and_eq_true] at hnames
          have hnd : (es.map (fun e => pyLower e.name)).Nodup := of_decide_eq_true hnames.1
          have hperm : ((sh₁ rel es).val).Perm ((sh₂ rel es).val) :=
            (sh₁ rel es).property.trans (sh₂ rel es).property.symm
          have hanti : ∀ a ∈ (sh₁ rel es).val, ∀ b ∈ (sh₁ rel es).val,
              entryLe a b = true → entryLe b a = true → a = b := by
            intro a ha b hb h1 h2
            exact List.inj_on_of_nodup_map hnd
              ((sh₁ rel es).property.mem_iff.mp ha)
              ((sh₁ rel es).property.mem_iff.mp hb)
              (strLeB_antisymm (pyLower a.name) (pyLower b.name) h1 h2)
          have hsort : pySorted entryLe (sh₁ rel es).val = pySorted entryLe (sh₂ rel es).val :=
            pySorted_eq_of_perm entryLe entryLe_total entryLe_trans _ _ hanti hperm
          simp only [iterFilesFuel]
          rw [hsort]
          congr 1
          refine List.flatMap_congr ?_
          intro d hd
          have hdes : d ∈ es := (sh₂ rel es).property.mem_iff.mp
            ((pySorted_perm entryLe (sh₂ rel es).val).mem_iff.mp
              (List.mem_of_mem_filter (List.mem_of_mem_filter hd)))
          exact ih d (rel ++ [d.name]) (namesDistinctList_mem es hnames.2 d hdes)

theorem analyzerAnalyze_shuffle_indep (oracles : DepOracles) (sh₁ sh₂ : Shuffle)
    (disp : String) (maxb : Nat) (t : FsTree) (hnames : t.namesDistinct = true) :
    analyzerAnalyze oracles sh₁ disp maxb t = analyzerAnalyze oracles sh₂ disp maxb t := by
  unfold analyzerAnalyze iterFiles
  rw [iterFilesFuel_shuffle_indep sh₁ sh₂ t.size t [] hnames]

theorem enhance_det_indep (slides : List Slide) (config : Config)
    (mp₁ mp₂ : Option String) (g₁ g₂ : Except AiFailure MergePayload)
    (hmode : config.general.mode = "deterministic") :
    enhance_slides_with_ai slides config mp₁ g₁ = enhance_slides_with_ai slides config mp₂ g₂ := by
  simp [enhance_slides_with_ai, hmode]

theorem run_core_det_indep (config : Config) (A : Analysis) (dd : DocData)
    (dw : List String) (gc : GitPayload) (mi : List Media) (iw : List String)
    (sha : String → String) (rkf : String → Option String) (rrel rtext : String)
    (mp₁ mp₂ : Option String) (g₁ g₂ : Except AiFailure MergePayload)
    (score : Slide → Media → Frac) (req : Option (List String)) (ms : Option Int)
    (hmode : config.general.mode = "deterministic") :
    run_generation_core config A dd dw gc mi iw sha rkf rrel rtext mp₁ g₁ score req ms =
    run_generation_core config A dd dw gc mi iw sha rkf rrel rtext mp₂ g₂ score req ms := by
  simp only [run_generation_core]
  rw [enhance_det_indep _ config mp₁ mp₂ g₁ g₂ hmode]

/-- C2: with `general.mode = "deterministic"` and directory listings whose
    lowercased names are distinct, the run result is independent of the
    order the OS yields directory entries in (the `Shuffle`) and of the
    model-backend oracle (`model_path`, `genResult`) — the two sources of
    nondeterminism — so two runs on identical inputs produce identical
    payloads (and hence byte-identical serialized slides). -/
theorem c2_deterministic_runs_identical (config : Config) (dep_oracles : DepOracles)
    (sh₁ sh₂ : Shuffle) (projectDisplay : String) (max_bytes : Nat) (tree : FsTree)
    (doc_data : DocData) (doc_warnings : List String) (git_context : GitPayload)
    (mediaIndexed : List Media) (iw : List String) (sha1hex : String → String)
    (read_key_file : String → Option String) (readme_rel readme_text : String)
    (mp₁ mp₂ : Option String) (gen₁ gen₂ : Except AiFailure MergePayload)
    (score : Slide → Media → Frac) (req : Option (List String)) (ms : Option Int)
    (hmode : config.general.mode = "deterministic")
    (hnames : tree.namesDistinct = true) :
    run_generation_from_tree config dep_oracles sh₁ projectDisplay max_bytes tree
        doc_data doc_warnings git_context mediaIndexed iw sha1hex read_key_file
        readme_rel readme_text mp₁ gen₁ score req ms =
    run_generation_from_tree config dep_oracles sh₂ projectDisplay max_bytes tree
        doc_data doc_warnings git_context mediaIndexed iw sha1hex read_key_file
        readme_rel readme_text mp₂ gen₂ score req ms := by
  unfold run_generation_from_tree
  rw [analyzerAnalyze_shuffle_indep dep_oracles sh₁ sh₂ projectDisplay max_bytes tree hnames]
  exact run_core_det_indep config _ doc_data doc_warnings git_context mediaIndexed iw
    sha1hex read_key_file readme_rel readme_text mp₁ mp₂ gen₁ gen₂ score req ms hmode

def c2Config : Config :=
  { general :=
      { mode := "deterministic", format := "json", theme := "default"
        max_slides := none, strict_quality := false }
    git := { base_branch := none, include_branch_context := true }
    ai := { enabled := true, backend := "llama.cpp", model_alias := "qwen2.5-3b-instruct-q4_k_m" }
    images :=
      { enabled := false, mode := "auto", max_images_per_slide := 1
        min_confidence := fq 72 100, visual_style := "mixed" } }

def c2Tree : FsTree :=
  .dir "proj" false
    [.file "main.py" false { readable := true, size := 4, hasNul := false, text := "a\nb" },
     .file "README.md" false { readable := true, size := 2, hasNul := false, text := "hi" }]

def c2Doc : DocData :=
  { title := "proj", description := "", problem := "", solution := "", features := []
    impact_points := [], future_items := [], installation := "", usage := "" }

def c2Oracles : DepOracles :=
  { parse_package_json_deps := fun _ => [], parse_pyproject_deps := fun _ => [] }

def revShuffle : Shuffle := fun _ l => ⟨l.reverse, List.reverse_perm l⟩

/-- Witness for C2: a concrete deterministic-mode run over a two-file
    project compared across the identity and the reversing shuffle and
    across an available and a failing backend. -/
theorem c2_deterministic_runs_identical_witness :
    c2Config.general.mode = "deterministic" ∧ c2Tree.namesDistinct = true ∧
    run_generation_from_tree c2Config c2Oracles identityShuffle "proj" 1000 c2Tree
        c2Doc [] gitPayloadInit [] [] (fun _ => "") (fun _ => none) "README.md" "hi"
        none (.ok { slides := none }) (fun _ _ => 0) none none =
    run_generation_from_tree c2Config c2Oracles revShuffle "proj" 1000 c2Tree
        c2Doc [] gitPayloadInit [] [] (fun _ => "") (fun _ => none) "README.md" "hi"
        (some "mp") (.error (.generic "backend down")) (fun _ _ => 0) none none :=
  ⟨rfl, by decide,
   c2_deterministic_runs_identical c2Config c2Oracles identityShuffle revShuffle "proj"
     1000 c2Tree c2Doc [] gitPayloadInit [] [] (fun _ => "") (fun _ => none) "README.md"
     "hi" none (some "mp") (.ok { slides := none }) (.error (.generic "backend down"))
     (fun _ _ => 0) none none rfl (by decide)⟩
